import Mathlib

/-!
Verification development for the BadLink packet-impairment pipeline.

The definitions below are a shallow embedding of the C++ sources under
`src/BadLink/src`.  Conventions used throughout:

* Machine floats (`float`, `double`) are modelled as exact rationals (`ℚ`):
  all verified claims concern boundary values (rate 0 / 100, clamping) or
  exact-arithmetic token-bucket bounds, where float and rational semantics
  agree on the quantified statements.
* `std::chrono::steady_clock::time_point` is modelled as a rational number of
  milliseconds on a monotone clock.
* The thread-local `std::mt19937` percentage source
  (`RandomUtils::GetPercentage`) is modelled as an explicit stream of samples
  with a consumption index (`RngState`); "no sample is taken" is expressed as
  the stream index being unchanged.
* `std::shuffle` with `RandomUtils::GetGenerator()` is modelled as an oracle
  function on lists; theorems that need it assume the oracle is a
  permutation, which `std::shuffle` guarantees.
* The `std::priority_queue` min-heaps of the latency and jitter modules are
  modelled at multiset level: pushing appends to a list and the
  pop-while-top-due loop extracts exactly the elements whose release time is
  at or before `now` (on a min-heap, the loop stops at the first element
  beyond `now`, and every remaining element is at or beyond that key), so
  draining is embedded as a filter.
-/

namespace BadLink

/-- The WinDivert per-packet address metadata, preserved bit-for-bit by the
pipeline.  Only the `Outbound` flag is inspected by the stages; the rest is
collapsed into opaque fields. -/
structure WINDIVERT_ADDRESS where
  Outbound : Bool
  Loopback : Bool
  IfIdx : Nat
  raw : Nat
deriving DecidableEq, Repr

/-- The `SimulatedPacket` from `simulation_module.h`: owned bytes, WinDivert
address, capture timestamp and scheduled release time (both in milliseconds on
the monotone clock). -/
structure SimulatedPacket where
  data : List Nat
  addr : WINDIVERT_ADDRESS
  timestamp : ℚ
  release_time : ℚ
deriving DecidableEq, Repr

/-- The thread-local uniform-\[0,100) sampler of `RandomUtils::GetPercentage`,
modelled as a stream of pre-drawn samples plus a consumption index. -/
structure RngState where
  vals : Nat → ℚ
  idx : Nat

/-- Draw one sample and advance the stream. -/
def RngState.sample (r : RngState) : ℚ × RngState :=
  (r.vals r.idx, ⟨r.vals, r.idx + 1⟩)

/-- The per-stage direction gate (`ShouldProcess` in every module):
`outbound ? outbound_enabled : inbound_enabled`. -/
def ShouldProcess (inbound_enabled outbound_enabled : Bool)
    (addr : WINDIVERT_ADDRESS) : Bool :=
  if addr.Outbound && !outbound_enabled then false
  else if !addr.Outbound && !inbound_enabled then false
  else true

/-- Gate applied to a packet. -/
def gatePass (inbound_enabled outbound_enabled : Bool)
    (p : SimulatedPacket) : Bool :=
  ShouldProcess inbound_enabled outbound_enabled p.addr

/-- Clamp a rate to `[0, 100]` (`std::clamp(x, 0.0f, 100.0f)`). -/
def clampRate (x : ℚ) : ℚ := max 0 (min x 100)

/-- Total byte length of a list of packets. -/
def sumBytes (l : List SimulatedPacket) : ℚ :=
  (l.map fun p => (p.data.length : ℚ)).sum

/-! ### Packet loss module (`packet_loss_module.cpp`) -/

structure PacketLossModule where
  enabled : Bool
  inbound_enabled : Bool
  outbound_enabled : Bool
  loss_rate : ℚ

def PacketLossModule.SetLossRate (m : PacketLossModule) (x : ℚ) :
    PacketLossModule :=
  { m with loss_rate := clampRate x }

def PacketLossModule.IsEnabled (m : PacketLossModule) : Bool := m.enabled

/-- The `ShouldDrop`: rate `≤ 0` never drops, rate `≥ 100` always drops, and in
both boundary cases no random sample is taken; otherwise one sample is drawn
and compared against the rate. -/
def PacketLossModule.ShouldDrop (m : PacketLossModule) (rng : RngState) :
    Bool × RngState :=
  if m.loss_rate ≤ 0 then (false, rng)
  else if 100 ≤ m.loss_rate then (true, rng)
  else
    let s := rng.sample
    (decide (s.1 < m.loss_rate), s.2)

/-- The per-packet loop of `PacketLossModule::ProcessBatch`; `ShouldDrop` is
evaluated only when the direction gate passes (C++ short-circuit `&&`). -/
def PacketLossModule.processList (m : PacketLossModule) :
    RngState → List SimulatedPacket → List SimulatedPacket × RngState
  | rng, [] => ([], rng)
  | rng, p :: rest =>
    if ShouldProcess m.inbound_enabled m.outbound_enabled p.addr then
      let d := m.ShouldDrop rng
      let r := m.processList d.2 rest
      if d.1 then (r.1, r.2) else (p :: r.1, r.2)
    else
      let r := m.processList rng rest
      (p :: r.1, r.2)

def PacketLossModule.ProcessBatch (m : PacketLossModule) (rng : RngState)
    (packets : List SimulatedPacket) : List SimulatedPacket × RngState :=
  if !m.enabled then (packets, rng)
  else m.processList rng packets

def PacketLossModule.GetReleasablePackets (_m : PacketLossModule) :
    List SimulatedPacket := []

/-! ### Duplicate module (`duplicate_module.cpp`) -/

structure DuplicateModule where
  enabled : Bool
  inbound_enabled : Bool
  outbound_enabled : Bool
  duplication_rate : ℚ
  duplicate_count : Nat

def DuplicateModule.SetDuplicationRate (m : DuplicateModule) (x : ℚ) :
    DuplicateModule :=
  { m with duplication_rate := clampRate x }

def DuplicateModule.SetDuplicateCount (m : DuplicateModule) (c : Nat) :
    DuplicateModule :=
  { m with duplicate_count := max 1 (min c 5) }

def DuplicateModule.IsEnabled (m : DuplicateModule) : Bool := m.enabled

def DuplicateModule.ShouldDuplicate (m : DuplicateModule) (rng : RngState) :
    Bool × RngState :=
  if m.duplication_rate ≤ 0 then (false, rng)
  else if 100 ≤ m.duplication_rate then (true, rng)
  else
    let s := rng.sample
    (decide (s.1 < m.duplication_rate), s.2)

/-- The per-packet loop of `DuplicateModule::ProcessBatch`: the original is
always emitted; when the gate (evaluated on the just-emitted packet, which
equals the original) passes and the Bernoulli trial succeeds,
`duplicate_count` copies of the just-emitted packet are appended, each a
byte-for-byte clone of the original including its metadata. -/
def DuplicateModule.processList (m : DuplicateModule) :
    RngState → List SimulatedPacket → List SimulatedPacket × RngState
  | rng, [] => ([], rng)
  | rng, p :: rest =>
    if ShouldProcess m.inbound_enabled m.outbound_enabled p.addr then
      let d := m.ShouldDuplicate rng
      let r := m.processList d.2 rest
      if d.1 then (p :: (List.replicate m.duplicate_count p ++ r.1), r.2)
      else (p :: r.1, r.2)
    else
      let r := m.processList rng rest
      (p :: r.1, r.2)

def DuplicateModule.ProcessBatch (m : DuplicateModule) (rng : RngState)
    (packets : List SimulatedPacket) : List SimulatedPacket × RngState :=
  if !m.enabled then (packets, rng)
  else m.processList rng packets

def DuplicateModule.GetReleasablePackets (_m : DuplicateModule) :
    List SimulatedPacket := []

/-! ### Out-of-order (reorder) module (`out_of_order_module.cpp`) -/

structure OutOfOrderModule where
  enabled : Bool
  inbound_enabled : Bool
  outbound_enabled : Bool
  reorder_rate : ℚ
  reorder_gap : Nat
  packet_buffer : List SimulatedPacket

def OutOfOrderModule.SetReorderRate (m : OutOfOrderModule) (x : ℚ) :
    OutOfOrderModule :=
  { m with reorder_rate := clampRate x }

def OutOfOrderModule.SetReorderGap (m : OutOfOrderModule) (gap : Nat) :
    OutOfOrderModule :=
  { m with reorder_gap := max 2 (min gap 10) }

def OutOfOrderModule.IsEnabled (m : OutOfOrderModule) : Bool := m.enabled

def OutOfOrderModule.ShouldReorder (m : OutOfOrderModule) (rng : RngState) :
    Bool × RngState :=
  if m.reorder_rate ≤ 0 then (false, rng)
  else if 100 ≤ m.reorder_rate then (true, rng)
  else
    let s := rng.sample
    (decide (s.1 < m.reorder_rate), s.2)

/-- The buffer-append loop of `OutOfOrderModule::ProcessBatch`: the direction
gate is evaluated, but both branches append the packet to the buffer (the
source's two branches are identical). -/
def OutOfOrderModule.appendToBuffer (m : OutOfOrderModule)
    (packets : List SimulatedPacket) : List SimulatedPacket :=
  packets.foldl
    (fun buf p =>
      if ShouldProcess m.inbound_enabled m.outbound_enabled p.addr then
        buf ++ [p]
      else
        buf ++ [p])
    m.packet_buffer

/-- The `ShuffleBuffer` under the oracle `shuffle`: the source returns without
shuffling when the buffer holds at most one packet. -/
def OutOfOrderModule.shuffled
    (shuffle : List SimulatedPacket → List SimulatedPacket)
    (buf : List SimulatedPacket) : List SimulatedPacket :=
  if buf.length ≤ 1 then buf else shuffle buf

/-- The `OutOfOrderModule::ProcessBatch`: append all incoming packets to the
buffer; if the buffer holds at least `gap` packets, draw the Bernoulli
reorder decision, optionally shuffle the whole buffer, and pop the first
`buffer.length - gap / 2` packets to the output; otherwise emit nothing. -/
def OutOfOrderModule.ProcessBatch (m : OutOfOrderModule)
    (shuffle : List SimulatedPacket → List SimulatedPacket) (rng : RngState)
    (packets : List SimulatedPacket) :
    List SimulatedPacket × OutOfOrderModule × RngState :=
  if !m.enabled then (packets, m, rng)
  else
    let buf := m.appendToBuffer packets
    let gap := m.reorder_gap
    if gap ≤ buf.length then
      let release_count := buf.length - gap / 2
      let sr := m.ShouldReorder rng
      let buf2 := if sr.1 then OutOfOrderModule.shuffled shuffle buf else buf
      (buf2.take release_count,
       { m with packet_buffer := buf2.drop release_count }, sr.2)
    else
      ([], { m with packet_buffer := buf }, rng)

/-- The `OutOfOrderModule::GetReleasablePackets`: when disabled, flush the whole
buffer in FIFO order; when enabled, release nothing. -/
def OutOfOrderModule.GetReleasablePackets (m : OutOfOrderModule) :
    List SimulatedPacket × OutOfOrderModule :=
  if !m.enabled then (m.packet_buffer, { m with packet_buffer := [] })
  else ([], m)

/-! ### Latency module (`latency_module.cpp`) -/

structure LatencyModule where
  enabled : Bool
  inbound_enabled : Bool
  outbound_enabled : Bool
  latency : ℚ
  delayed_packets : List SimulatedPacket

def LatencyModule.SetLatency (m : LatencyModule) (latency_ms : Nat) :
    LatencyModule :=
  { m with latency := latency_ms }

def LatencyModule.IsEnabled (m : LatencyModule) : Bool := m.enabled

/-- The `LatencyModule::ProcessBatch`: gate-passing packets get
`release_time = now + latency` and are pushed onto the delay heap;
gate-failing packets are returned immediately in input order. -/
def LatencyModule.ProcessBatch (m : LatencyModule) (now : ℚ)
    (packets : List SimulatedPacket) : List SimulatedPacket × LatencyModule :=
  if !m.enabled then (packets, m)
  else
    (packets.filter fun p =>
       !gatePass m.inbound_enabled m.outbound_enabled p,
     { m with delayed_packets := m.delayed_packets ++
         ((packets.filter fun p =>
             gatePass m.inbound_enabled m.outbound_enabled p).map
           fun p => { p with release_time := now + m.latency }) })

/-- The `LatencyModule::GetReleasablePackets`: when disabled, flush the whole
heap; when enabled, pop every packet whose `release_time` is at or before
`now` (heap modelled at multiset level, see the header comment). -/
def LatencyModule.GetReleasablePackets (m : LatencyModule) (now : ℚ) :
    List SimulatedPacket × LatencyModule :=
  if !m.enabled then (m.delayed_packets, { m with delayed_packets := [] })
  else
    (m.delayed_packets.filter fun p => p.release_time ≤ now,
     { m with delayed_packets :=
         m.delayed_packets.filter fun p => !(p.release_time ≤ now : Bool) })

/-! ### Jitter module (`jitter_module.cpp`) -/

structure JitterModule where
  enabled : Bool
  inbound_enabled : Bool
  outbound_enabled : Bool
  min_jitter : Nat
  max_jitter : Nat
  delayed_packets : List SimulatedPacket

def JitterModule.SetJitterRange (m : JitterModule) (min_ms max_ms : Nat) :
    JitterModule :=
  { m with min_jitter := min min_ms max_ms, max_jitter := max min_ms max_ms }

def JitterModule.IsEnabled (m : JitterModule) : Bool := m.enabled

/-- The `GenerateJitter` for the `i`-th gate-passing packet of a batch, with
`d : Nat → Nat` the oracle of values drawn by the thread-local
`uniform_int_distribution`: when `min = max` the value is `min` and no draw
happens. -/
def JitterModule.generateJitter (m : JitterModule) (d : Nat → Nat) (i : Nat) :
    Nat :=
  if m.min_jitter = m.max_jitter then m.min_jitter else d i

/-- The `JitterModule::ProcessBatch`: the `i`-th gate-passing packet gets
`release_time = now + generateJitter d i` and is pushed onto the delay heap;
gate-failing packets are returned immediately in input order. -/
def JitterModule.ProcessBatch (m : JitterModule) (d : Nat → Nat) (now : ℚ)
    (packets : List SimulatedPacket) : List SimulatedPacket × JitterModule :=
  if !m.enabled then (packets, m)
  else
    (packets.filter fun p =>
       !gatePass m.inbound_enabled m.outbound_enabled p,
     { m with delayed_packets := m.delayed_packets ++
         ((packets.filter fun p =>
             gatePass m.inbound_enabled m.outbound_enabled p).enum.map
           fun ip =>
             { ip.2 with release_time :=
                 now + (m.generateJitter d ip.1 : ℚ) }) })

/-- The `JitterModule::GetReleasablePackets`: same release discipline as the
latency module. -/
def JitterModule.GetReleasablePackets (m : JitterModule) (now : ℚ) :
    List SimulatedPacket × JitterModule :=
  if !m.enabled then (m.delayed_packets, { m with delayed_packets := [] })
  else
    (m.delayed_packets.filter fun p => p.release_time ≤ now,
     { m with delayed_packets :=
         m.delayed_packets.filter fun p => !(p.release_time ≤ now : Bool) })

/-! ### Bandwidth module (`bandwidth_module.cpp`, inlined in
`random_utils.h` in the source listing) -/

structure BandwidthModule where
  enabled : Bool
  inbound_enabled : Bool
  outbound_enabled : Bool
  bandwidth_kbps : Nat
  last_refill_time : ℚ
  available_bytes : ℚ
  max_burst_bytes : ℚ
  packet_queue : List SimulatedPacket

/-- The `BandwidthModule::SetBandwidthLimit`: stores the rate and updates the
burst size to one second of data (`kbps * 1000 / 8` bytes).  The available
token balance is left untouched. -/
def BandwidthModule.SetBandwidthLimit (m : BandwidthModule) (kbps : Nat) :
    BandwidthModule :=
  { m with bandwidth_kbps := kbps,
           max_burst_bytes := (kbps : ℚ) * 1000 / 8 }

/-- The `BandwidthModule::SetEnabled`: enabling seeds the bucket with half a
burst and resets the refill clock to `now`. -/
def BandwidthModule.SetEnabled (m : BandwidthModule) (enabled : Bool)
    (now : ℚ) : BandwidthModule :=
  if enabled then
    { m with enabled := true, last_refill_time := now,
             available_bytes := m.max_burst_bytes / 2 }
  else
    { m with enabled := false }

def BandwidthModule.IsEnabled (m : BandwidthModule) : Bool := m.enabled

/-- The `RefillTokenBucket`: add `bytes_per_second * elapsed_seconds` tokens,
saturated at `max_burst_bytes`; `now` is in milliseconds, whence the `/ 1000`
for the elapsed seconds. -/
def BandwidthModule.RefillTokenBucket (m : BandwidthModule) (now : ℚ) :
    BandwidthModule :=
  let elapsed_seconds : ℚ := (now - m.last_refill_time) / 1000
  let bytes_per_second : ℚ := (m.bandwidth_kbps : ℚ) * 1000 / 8
  { m with
    available_bytes :=
      min (m.available_bytes + bytes_per_second * elapsed_seconds)
        m.max_burst_bytes,
    last_refill_time := now }

/-- The head-drain loop shared by `ProcessBatch` and `GetReleasablePackets`:
repeatedly pop the queue head while the token balance covers its full byte
length (`ConsumeTokens`), returning the emitted packets, the remaining queue
and the remaining balance. -/
def drainQueue : ℚ → List SimulatedPacket →
    List SimulatedPacket × List SimulatedPacket × ℚ
  | avail, [] => ([], [], avail)
  | avail, p :: rest =>
    if (p.data.length : ℚ) ≤ avail then
      let r := drainQueue (avail - p.data.length) rest
      (p :: r.1, r.2.1, r.2.2)
    else
      ([], p :: rest, avail)

/-- The `BandwidthModule::ProcessBatch`: refill, route gate-failing packets
straight to the output (in input order), enqueue gate-passing packets, then
run the head-drain loop and append its emissions. -/
def BandwidthModule.ProcessBatch (m : BandwidthModule) (now : ℚ)
    (packets : List SimulatedPacket) :
    List SimulatedPacket × BandwidthModule :=
  if !m.enabled then (packets, m)
  else
    let m1 := m.RefillTokenBucket now
    let bypass := packets.filter fun p =>
      !gatePass m.inbound_enabled m.outbound_enabled p
    let queued := packets.filter fun p =>
      gatePass m.inbound_enabled m.outbound_enabled p
    let r := drainQueue m1.available_bytes (m1.packet_queue ++ queued)
    (bypass ++ r.1,
     { m1 with packet_queue := r.2.1, available_bytes := r.2.2 })

/-- The `BandwidthModule::GetReleasablePackets`: when disabled, flush the queue
in FIFO order regardless of tokens; when enabled, refill and run the
head-drain loop. -/
def BandwidthModule.GetReleasablePackets (m : BandwidthModule) (now : ℚ) :
    List SimulatedPacket × BandwidthModule :=
  if !m.enabled then (m.packet_queue, { m with packet_queue := [] })
  else
    let m1 := m.RefillTokenBucket now
    let r := drainQueue m1.available_bytes m1.packet_queue
    (r.1, { m1 with packet_queue := r.2.1, available_bytes := r.2.2 })

/-! ### Capture dispatcher (`network_capture.cpp`) -/

/-- The six stage instances held by `NetworkCapture`. -/
structure Pipeline where
  loss : PacketLossModule
  dup : DuplicateModule
  reorder : OutOfOrderModule
  jitter : JitterModule
  bandwidth : BandwidthModule
  latency : LatencyModule

/-- The stage sequence of `NetworkCapture::CaptureThreadBatch` (lines
543-572): each stage is consulted through `IsEnabled()` and, when enabled,
its `ProcessBatch` is applied, in the fixed order loss, duplicate, reorder,
jitter, bandwidth, latency.  `shuffle` and `d` are the randomness oracles of
the reorder and jitter stages; `nowJ nowB nowL` are the clock readings taken
inside the jitter, bandwidth and latency stages. -/
def Pipeline.captureThreadBatch (pl : Pipeline)
    (shuffle : List SimulatedPacket → List SimulatedPacket) (d : Nat → Nat)
    (nowJ nowB nowL : ℚ) (rng : RngState) (batch : List SimulatedPacket) :
    List SimulatedPacket × Pipeline × RngState :=
  let s1 := if pl.loss.IsEnabled then pl.loss.ProcessBatch rng batch
            else (batch, rng)
  let s2 := if pl.dup.IsEnabled then pl.dup.ProcessBatch s1.2 s1.1
            else (s1.1, s1.2)
  let s3 := if pl.reorder.IsEnabled then
              pl.reorder.ProcessBatch shuffle s2.2 s2.1
            else (s2.1, pl.reorder, s2.2)
  let s4 := if pl.jitter.IsEnabled then pl.jitter.ProcessBatch d nowJ s3.1
            else (s3.1, pl.jitter)
  let s5 := if pl.bandwidth.IsEnabled then pl.bandwidth.ProcessBatch nowB s4.1
            else (s4.1, pl.bandwidth)
  let s6 := if pl.latency.IsEnabled then pl.latency.ProcessBatch nowL s5.1
            else (s5.1, pl.latency)
  (s6.1,
   { loss := pl.loss, dup := pl.dup, reorder := s3.2.1, jitter := s4.2,
     bandwidth := s5.2, latency := s6.2 },
   s3.2.2)

/-- The canonical-order pipeline as specified: every stage's `process_batch`
is stepped in the order loss, duplicate, reorder, jitter, bandwidth, latency,
a disabled stage acting as the identity on the batch. -/
def Pipeline.canonicalSteps (pl : Pipeline)
    (shuffle : List SimulatedPacket → List SimulatedPacket) (d : Nat → Nat)
    (nowJ nowB nowL : ℚ) (rng : RngState) (batch : List SimulatedPacket) :
    List SimulatedPacket × Pipeline × RngState :=
  let s1 := pl.loss.ProcessBatch rng batch
  let s2 := pl.dup.ProcessBatch s1.2 s1.1
  let s3 := pl.reorder.ProcessBatch shuffle s2.2 s2.1
  let s4 := pl.jitter.ProcessBatch d nowJ s3.1
  let s5 := pl.bandwidth.ProcessBatch nowB s4.1
  let s6 := pl.latency.ProcessBatch nowL s5.1
  (s6.1,
   { loss := pl.loss, dup := pl.dup, reorder := s3.2.1, jitter := s4.2,
     bandwidth := s5.2, latency := s6.2 },
   s3.2.2)

/-- The final drain of `NetworkCapture::Stop` (lines 163-167): after the
workers are joined, `GetReleasablePackets` is invoked once on the latency,
jitter, bandwidth and reorder stages (outputs discarded); the stage states
after those calls are returned. -/
def stopDrain (lat : LatencyModule) (jit : JitterModule)
    (bw : BandwidthModule) (ord : OutOfOrderModule) (now : ℚ) :
    LatencyModule × JitterModule × BandwidthModule × OutOfOrderModule :=
  ((lat.GetReleasablePackets now).2,
   (jit.GetReleasablePackets now).2,
   (bw.GetReleasablePackets now).2,
   ord.GetReleasablePackets.2)

/-- A sequence of `drain_due` calls on the latency stage, one per invocation
time, collecting each call's output (this is the release worker's loop from
`NetworkCapture::LatencyReleaseThread`, with the 10 ms ticks generalized to
an arbitrary list of invocation times). -/
def LatencyModule.runDrains (m : LatencyModule) :
    List ℚ → List (List SimulatedPacket) × LatencyModule
  | [] => ([], m)
  | u :: us =>
    let r := m.GetReleasablePackets u
    let rest := r.2.runDrains us
    (r.1 :: rest.1, rest.2)

/-- Erase the scheduling bookkeeping of a packet: per the data model,
`release_at` is meaningful only while a packet sits inside a time-delay
stage, so packet identity is compared with it erased. -/
def releaseErased (p : SimulatedPacket) : SimulatedPacket :=
  { p with release_time := 0 }

/-- The identity multiset of a packet list (release times erased). -/
def coreBag (l : List SimulatedPacket) : List SimulatedPacket :=
  l.map releaseErased

/-- Demo inbound packet of 8000 bytes, larger than a 56 kbps burst. -/
def demoBigPacket : SimulatedPacket :=
  { data := List.replicate 8000 0, addr := ⟨false, false, 0, 0⟩,
    timestamp := 0, release_time := 0 }

/-- Demo bandwidth stage shaping outbound traffic only (56 kbps). -/
def demoBandwidthGateFail : BandwidthModule :=
  { enabled := true, inbound_enabled := false, outbound_enabled := true,
    bandwidth_kbps := 56, last_refill_time := 0, available_bytes := 3500,
    max_burst_bytes := 7000, packet_queue := [] }

/-- Demo packet (inbound) used in concrete witnesses. -/
def demoPktIn : SimulatedPacket :=
  { data := [1], addr := ⟨false, false, 0, 0⟩, timestamp := 0,
    release_time := 0 }

/-- Demo packet (outbound) used in concrete witnesses. -/
def demoPktOut : SimulatedPacket :=
  { data := [9], addr := ⟨true, false, 0, 0⟩, timestamp := 0,
    release_time := 0 }

/-- Demo reorder stage holding one buffered packet. -/
def demoReorder : OutOfOrderModule :=
  { enabled := true, inbound_enabled := true, outbound_enabled := true,
    reorder_rate := 0, reorder_gap := 3, packet_buffer := [demoPktOut] }

/-- Demo bandwidth stage holding one queued packet. -/
def demoBandwidth : BandwidthModule :=
  { enabled := true, inbound_enabled := true, outbound_enabled := true,
    bandwidth_kbps := 56, last_refill_time := 0, available_bytes := 3500,
    max_burst_bytes := 7000, packet_queue := [demoPktOut] }

/-- An operation applied to the bandwidth stage while capturing: a capture
worker's `process_batch` or a release worker's `drain_due`, each stamped
with its invocation time. -/
inductive BwOp where
  | process (now : ℚ) (batch : List SimulatedPacket)
  | drain (now : ℚ)

/-- Invocation time of a bandwidth operation. -/
def BwOp.time : BwOp → ℚ
  | .process now _ => now
  | .drain now => now

/-- Apply one operation to the bandwidth stage. -/
def BandwidthModule.applyOp (m : BandwidthModule) :
    BwOp → List SimulatedPacket × BandwidthModule
  | .process now batch => m.ProcessBatch now batch
  | .drain now => m.GetReleasablePackets now

/-- Bytes released from the token-governed queue by one operation (the
gate-failing bypass packets of `process_batch` are not counted: they never
enter the queue and consume no tokens). -/
def BandwidthModule.opShapedBytes (m : BandwidthModule) : BwOp → ℚ
  | .process now batch =>
    if !m.enabled then 0
    else
      sumBytes (drainQueue (m.RefillTokenBucket now).available_bytes
        ((m.RefillTokenBucket now).packet_queue ++
          (batch.filter fun p =>
            gatePass m.inbound_enabled m.outbound_enabled p))).1
  | .drain now =>
    if !m.enabled then sumBytes m.packet_queue
    else
      sumBytes (drainQueue (m.RefillTokenBucket now).available_bytes
        (m.RefillTokenBucket now).packet_queue).1

/-- Total token-governed bytes released over a trace of operations. -/
def BandwidthModule.runShapedBytes (m : BandwidthModule) : List BwOp → ℚ
  | [] => 0
  | op :: ops =>
    m.opShapedBytes op + ((m.applyOp op).2.runShapedBytes ops)

/-- Total bytes of all packets emitted over a trace of operations, bypass
packets included — the quantity of the original claim. -/
def BandwidthModule.runEmittedBytes (m : BandwidthModule) : List BwOp → ℚ
  | [] => 0
  | op :: ops =>
    sumBytes (m.applyOp op).1 + ((m.applyOp op).2.runEmittedBytes ops)

/-- Operation times are nondecreasing, starting at or after `lo` and ending
at or before `hi` (monotone clock within the observation window). -/
def timesValid : ℚ → ℚ → List BwOp → Bool
  | _, _, [] => true
  | lo, hi, op :: ops =>
    decide (lo ≤ op.time) && decide (op.time ≤ hi) &&
      timesValid op.time hi ops

/-! ## Helper lemmas -/

/-- The buffer-append loop appends the whole batch: the two gate branches of
the source are identical. -/
theorem OutOfOrderModule.appendToBuffer_eq (m : OutOfOrderModule)
    (packets : List SimulatedPacket) :
    m.appendToBuffer packets = m.packet_buffer ++ packets := by
  unfold OutOfOrderModule.appendToBuffer
  induction packets generalizing m with
  | nil => simp
  | cons p rest ih =>
    simp only [List.foldl_cons, ite_self]
    have h := ih { m with packet_buffer := m.packet_buffer ++ [p] }
    simpa using h

/-- The head-drain loop returns a split of its input queue. -/
theorem drainQueue_conservation (avail : ℚ) (l : List SimulatedPacket) :
    (drainQueue avail l).1 ++ (drainQueue avail l).2.1 = l := by
  induction l generalizing avail with
  | nil => simp [drainQueue]
  | cons p rest ih =>
    by_cases h : (p.data.length : ℚ) ≤ avail
    · simp [drainQueue, h, ih]
    · simp [drainQueue, h]

/-- Tokens consumed by the head-drain loop equal the bytes emitted. -/
theorem drainQueue_bytes (avail : ℚ) (l : List SimulatedPacket) :
    sumBytes (drainQueue avail l).1 + (drainQueue avail l).2.2 = avail := by
  induction l generalizing avail with
  | nil => simp [drainQueue, sumBytes]
  | cons p rest ih =>
    by_cases h : (p.data.length : ℚ) ≤ avail
    · have h2 := ih (avail - p.data.length)
      simp only [drainQueue, h, if_true, sumBytes, List.map_cons,
        List.sum_cons] at h2 ⊢
      linarith
    · simp [drainQueue, h, sumBytes]

/-- The head-drain loop never overdraws the balance. -/
theorem drainQueue_nonneg (avail : ℚ) (l : List SimulatedPacket)
    (h : 0 ≤ avail) : 0 ≤ (drainQueue avail l).2.2 := by
  induction l generalizing avail with
  | nil => simpa [drainQueue] using h
  | cons p rest ih =>
    by_cases hc : (p.data.length : ℚ) ≤ avail
    · have : (0 : ℚ) ≤ avail - p.data.length := by
        have : (0 : ℚ) ≤ (p.data.length : ℚ) := by positivity
        linarith
      simpa [drainQueue, hc] using ih (avail - p.data.length) this
    · simpa [drainQueue, hc] using h

/-- The gate only inspects the address, never the release time. -/
theorem gatePass_release (inb outb : Bool) (p : SimulatedPacket) (x : ℚ) :
    gatePass inb outb { p with release_time := x } = gatePass inb outb p :=
  rfl

/-- With a non-positive loss rate, the loss loop keeps every packet and draws
no sample. -/
theorem PacketLossModule.processList_rate_nonpos (m : PacketLossModule)
    (h : m.loss_rate ≤ 0) (rng : RngState) (l : List SimulatedPacket) :
    m.processList rng l = (l, rng) := by
  induction l generalizing rng with
  | nil => rfl
  | cons p rest ih =>
    by_cases hg : ShouldProcess m.inbound_enabled m.outbound_enabled p.addr
    · simp [PacketLossModule.processList, hg, PacketLossModule.ShouldDrop, h,
        ih]
    · simp [PacketLossModule.processList, hg, ih]

/-- With a saturated loss rate and every packet passing the gate, the loss
loop drops everything and draws no sample. -/
theorem PacketLossModule.loss_rate_sat_drops_all (m : PacketLossModule)
    (h : 100 ≤ m.loss_rate) (rng : RngState) (l : List SimulatedPacket)
    (hg : ∀ p ∈ l,
      ShouldProcess m.inbound_enabled m.outbound_enabled p.addr = true) :
    m.processList rng l = ([], rng) := by
  have hpos : ¬ m.loss_rate ≤ 0 := by
    intro hle
    have : (100 : ℚ) ≤ 0 := le_trans h hle
    norm_num at this
  induction l generalizing rng with
  | nil => rfl
  | cons p rest ih =>
    have hp := hg p (by simp)
    have hrest : ∀ p ∈ rest,
        ShouldProcess m.inbound_enabled m.outbound_enabled p.addr = true :=
      fun q hq => hg q (by simp [hq])
    have hrec := ih rng hrest
    simp [PacketLossModule.processList, hp, PacketLossModule.ShouldDrop, hpos,
      h, hrec]

/-- With a saturated duplication rate and every packet passing the gate, the
duplicate loop emits each packet followed by `duplicate_count` clones, and
draws no sample. -/
theorem DuplicateModule.dup_rate_sat_fanout (m : DuplicateModule)
    (h : 100 ≤ m.duplication_rate) (rng : RngState)
    (l : List SimulatedPacket)
    (hg : ∀ p ∈ l,
      ShouldProcess m.inbound_enabled m.outbound_enabled p.addr = true) :
    m.processList rng l =
      (l.flatMap fun p => p :: List.replicate m.duplicate_count p, rng) := by
  have hpos : ¬ m.duplication_rate ≤ 0 := by
    intro hle
    have : (100 : ℚ) ≤ 0 := le_trans h hle
    norm_num at this
  induction l generalizing rng with
  | nil => rfl
  | cons p rest ih =>
    have hp := hg p (by simp)
    have hrest : ∀ p ∈ rest,
        ShouldProcess m.inbound_enabled m.outbound_enabled p.addr = true :=
      fun q hq => hg q (by simp [hq])
    have hrec := ih rng hrest
    simp [DuplicateModule.processList, hp, DuplicateModule.ShouldDuplicate,
      hpos, h, hrec]

/-! ## Claims -/

/-- C5: for the enabled loss stage, a clamped rate at or below 0 makes
`process_batch` return its input batch exactly (hence the same multiset),
and a rate at or above 100 makes it return the empty batch whenever every
packet passes the direction gate; in both boundary cases the random stream
is left untouched (no sample is taken for any packet). -/
theorem c5_loss_boundaries (m : PacketLossModule) (rng : RngState)
    (batch : List SimulatedPacket) (hen : m.enabled = true) :
    (m.loss_rate ≤ 0 → m.ProcessBatch rng batch = (batch, rng)) ∧
    (100 ≤ m.loss_rate →
      (∀ p ∈ batch,
        gatePass m.inbound_enabled m.outbound_enabled p = true) →
      m.ProcessBatch rng batch = ([], rng)) := by
  constructor
  · intro h0
    simp [PacketLossModule.ProcessBatch, hen,
      m.processList_rate_nonpos h0 rng batch]
  · intro h100 hg
    simp [PacketLossModule.ProcessBatch, hen,
      m.loss_rate_sat_drops_all h100 rng batch hg]

/-- C5 witness: concrete evaluations of both boundary branches. -/
theorem c5_loss_boundaries_witness :
    ({ enabled := true, inbound_enabled := true, outbound_enabled := true,
       loss_rate := 0 : PacketLossModule }.ProcessBatch ⟨fun _ => 7, 0⟩
        [{ data := [1, 2], addr := ⟨true, false, 0, 0⟩, timestamp := 0,
           release_time := 0 }] =
      ([{ data := [1, 2], addr := ⟨true, false, 0, 0⟩, timestamp := 0,
          release_time := 0 }], ⟨fun _ => 7, 0⟩)) ∧
    ({ enabled := true, inbound_enabled := true, outbound_enabled := true,
       loss_rate := 100 : PacketLossModule }.ProcessBatch ⟨fun _ => 7, 0⟩
        [{ data := [1, 2], addr := ⟨true, false, 0, 0⟩, timestamp := 0,
           release_time := 0 }] =
      ([], ⟨fun _ => 7, 0⟩)) := by
  constructor
  · exact (c5_loss_boundaries _ _ _ rfl).1 (by norm_num)
  · exact (c5_loss_boundaries _ _ _ rfl).2 (by norm_num)
      (by intro p hp; simp at hp; subst hp; rfl)

/-- C6: for the enabled duplicate stage with rate 100 and `copies = k`,
`process_batch` on a batch of gate-passing packets emits each original in
input order immediately followed by `k` clones equal to the original record
(bytes and metadata included), for a total of `(k+1)·n` packets, without
touching the random stream. -/
theorem c6_duplicate_fanout (m : DuplicateModule) (rng : RngState)
    (batch : List SimulatedPacket) (k : Nat) (hen : m.enabled = true)
    (hrate : 100 ≤ m.duplication_rate) (hk : m.duplicate_count = k)
    (hk1 : 1 ≤ k) (hk5 : k ≤ 5)
    (hg : ∀ p ∈ batch,
      gatePass m.inbound_enabled m.outbound_enabled p = true) :
    m.ProcessBatch rng batch =
      (batch.flatMap fun p => p :: List.replicate k p, rng) ∧
    (m.ProcessBatch rng batch).1.length = (k + 1) * batch.length := by
  have hmain : m.ProcessBatch rng batch =
      (batch.flatMap fun p => p :: List.replicate k p, rng) := by
    simpa [DuplicateModule.ProcessBatch, hen, hk] using
      m.dup_rate_sat_fanout hrate rng batch hg
  refine ⟨hmain, ?_⟩
  rw [hmain]
  have hlen : ∀ l : List SimulatedPacket,
      (l.flatMap fun p => p :: List.replicate k p).length =
        (k + 1) * l.length := by
    intro l
    induction l with
    | nil => simp
    | cons p rest ih =>
      simp only [List.flatMap_cons, List.length_append, List.length_cons,
        List.length_replicate, ih]
      ring
  exact hlen batch

/-- C6 witness: two packets duplicated with `k = 2`. -/
theorem c6_duplicate_fanout_witness :
    ({ enabled := true, inbound_enabled := true, outbound_enabled := true,
       duplication_rate := 100, duplicate_count := 2 :
        DuplicateModule }.ProcessBatch ⟨fun _ => 7, 0⟩
        [{ data := [1], addr := ⟨true, false, 0, 0⟩, timestamp := 0,
           release_time := 0 },
         { data := [2, 3], addr := ⟨false, false, 1, 0⟩, timestamp := 1,
           release_time := 0 }] =
      ([{ data := [1], addr := ⟨true, false, 0, 0⟩, timestamp := 0,
          release_time := 0 },
        { data := [1], addr := ⟨true, false, 0, 0⟩, timestamp := 0,
          release_time := 0 },
        { data := [1], addr := ⟨true, false, 0, 0⟩, timestamp := 0,
          release_time := 0 },
        { data := [2, 3], addr := ⟨false, false, 1, 0⟩, timestamp := 1,
          release_time := 0 },
        { data := [2, 3], addr := ⟨false, false, 1, 0⟩, timestamp := 1,
          release_time := 0 },
        { data := [2, 3], addr := ⟨false, false, 1, 0⟩, timestamp := 1,
          release_time := 0 }], ⟨fun _ => 7, 0⟩)) ∧ 6 = (2 + 1) * 2 := by
  have h := c6_duplicate_fanout
    { enabled := true, inbound_enabled := true, outbound_enabled := true,
      duplication_rate := 100, duplicate_count := 2 } ⟨fun _ => 7, 0⟩
    [{ data := [1], addr := ⟨true, false, 0, 0⟩, timestamp := 0,
       release_time := 0 },
     { data := [2, 3], addr := ⟨false, false, 1, 0⟩, timestamp := 1,
       release_time := 0 }] 2 rfl (by norm_num) rfl (by norm_num)
    (by norm_num)
    (by
      intro p hp
      simp at hp
      rcases hp with hp | hp <;> subst hp <;> rfl)
  refine ⟨?_, by norm_num⟩
  rw [h.1]
  rfl

/-- The dispatcher's `IsEnabled` guard around the loss stage is redundant:
a disabled stage's `process_batch` is already the identity. -/
theorem PacketLossModule.loss_step_eq (m : PacketLossModule) (rng : RngState)
    (batch : List SimulatedPacket) :
    (if m.IsEnabled then m.ProcessBatch rng batch else (batch, rng)) =
      m.ProcessBatch rng batch := by
  cases h : m.enabled <;>
    simp [PacketLossModule.IsEnabled, PacketLossModule.ProcessBatch, h]

/-- Guard-elimination for the duplicate stage. -/
theorem DuplicateModule.dup_step_eq (m : DuplicateModule) (rng : RngState)
    (batch : List SimulatedPacket) :
    (if m.IsEnabled then m.ProcessBatch rng batch else (batch, rng)) =
      m.ProcessBatch rng batch := by
  cases h : m.enabled <;>
    simp [DuplicateModule.IsEnabled, DuplicateModule.ProcessBatch, h]

/-- Guard-elimination for the reorder stage. -/
theorem OutOfOrderModule.reorder_step_eq (m : OutOfOrderModule)
    (shuffle : List SimulatedPacket → List SimulatedPacket) (rng : RngState)
    (batch : List SimulatedPacket) :
    (if m.IsEnabled then m.ProcessBatch shuffle rng batch
     else (batch, m, rng)) = m.ProcessBatch shuffle rng batch := by
  cases h : m.enabled <;>
    simp [OutOfOrderModule.IsEnabled, OutOfOrderModule.ProcessBatch, h]

/-- Guard-elimination for the jitter stage. -/
theorem JitterModule.jitter_step_eq (m : JitterModule) (d : Nat → Nat) (now : ℚ)
    (batch : List SimulatedPacket) :
    (if m.IsEnabled then m.ProcessBatch d now batch else (batch, m)) =
      m.ProcessBatch d now batch := by
  cases h : m.enabled <;>
    simp [JitterModule.IsEnabled, JitterModule.ProcessBatch, h]

/-- Guard-elimination for the bandwidth stage. -/
theorem BandwidthModule.bandwidth_step_eq (m : BandwidthModule) (now : ℚ)
    (batch : List SimulatedPacket) :
    (if m.IsEnabled then m.ProcessBatch now batch else (batch, m)) =
      m.ProcessBatch now batch := by
  cases h : m.enabled <;>
    simp [BandwidthModule.IsEnabled, BandwidthModule.ProcessBatch, h]

/-- Guard-elimination for the latency stage. -/
theorem LatencyModule.latency_step_eq (m : LatencyModule) (now : ℚ)
    (batch : List SimulatedPacket) :
    (if m.IsEnabled then m.ProcessBatch now batch else (batch, m)) =
      m.ProcessBatch now batch := by
  cases h : m.enabled <;>
    simp [LatencyModule.IsEnabled, LatencyModule.ProcessBatch, h]

/-- C4: for every received batch, stage configuration, randomness oracle and
clock reading, the capture worker's stage sequence (each stage guarded by
`IsEnabled()`, a disabled stage skipped as the identity) produces exactly the
result of stepping the batch through the six stages' `process_batch`
functions sequentially in the canonical order loss, duplicate, reorder,
jitter, bandwidth, latency. -/
theorem c4_pipeline_order (pl : Pipeline)
    (shuffle : List SimulatedPacket → List SimulatedPacket) (d : Nat → Nat)
    (nowJ nowB nowL : ℚ) (rng : RngState) (batch : List SimulatedPacket) :
    pl.captureThreadBatch shuffle d nowJ nowB nowL rng batch =
      pl.canonicalSteps shuffle d nowJ nowB nowL rng batch := by
  unfold Pipeline.captureThreadBatch Pipeline.canonicalSteps
  simp only [PacketLossModule.loss_step_eq, DuplicateModule.dup_step_eq,
    OutOfOrderModule.reorder_step_eq, JitterModule.jitter_step_eq, BandwidthModule.bandwidth_step_eq,
    LatencyModule.latency_step_eq]

/-- C7: on each `process_batch` call of the enabled reorder stage, after the
incoming packets are appended to the FIFO, if the buffer length `L` is at
least `gap` then exactly the first `L - gap / 2` entries of the
(post-shuffle, when the Bernoulli trial succeeded, otherwise FIFO-ordered)
buffer are emitted and the rest retained; if `L < gap` nothing is emitted and
the whole buffer is retained. -/
theorem c7_reorder_window (m : OutOfOrderModule)
    (shuffle : List SimulatedPacket → List SimulatedPacket) (rng : RngState)
    (batch : List SimulatedPacket) (hen : m.enabled = true)
    (hshuf : ∀ l, (shuffle l).length = l.length) :
    (m.reorder_gap ≤ (m.packet_buffer ++ batch).length →
      (m.ProcessBatch shuffle rng batch).1 =
        (if (m.ShouldReorder rng).1 then
          OutOfOrderModule.shuffled shuffle (m.packet_buffer ++ batch)
         else m.packet_buffer ++ batch).take
          ((m.packet_buffer ++ batch).length - m.reorder_gap / 2) ∧
      (m.ProcessBatch shuffle rng batch).2.1.packet_buffer =
        (if (m.ShouldReorder rng).1 then
          OutOfOrderModule.shuffled shuffle (m.packet_buffer ++ batch)
         else m.packet_buffer ++ batch).drop
          ((m.packet_buffer ++ batch).length - m.reorder_gap / 2) ∧
      (m.ProcessBatch shuffle rng batch).1.length =
        (m.packet_buffer ++ batch).length - m.reorder_gap / 2) ∧
    ((m.packet_buffer ++ batch).length < m.reorder_gap →
      (m.ProcessBatch shuffle rng batch).1 = [] ∧
      (m.ProcessBatch shuffle rng batch).2.1.packet_buffer =
        m.packet_buffer ++ batch) := by
  have hlen2 : ∀ l : List SimulatedPacket,
      (OutOfOrderModule.shuffled shuffle l).length = l.length := by
    intro l
    unfold OutOfOrderModule.shuffled
    by_cases h : l.length ≤ 1 <;> simp [h, hshuf]
  constructor
  · intro hge
    have hge2 : m.reorder_gap ≤ m.packet_buffer.length + batch.length := by
      simpa using hge
    unfold OutOfOrderModule.ProcessBatch
    rw [m.appendToBuffer_eq]
    refine ⟨?_, ?_, ?_⟩
    · simp [hen, hge2]
    · simp [hen, hge2]
    · by_cases hr : (m.ShouldReorder rng).1
      · simp [hen, hge2, hr, List.length_take, hlen2, Nat.sub_le,
          min_eq_left]
      · simp [hen, hge2, hr, List.length_take, Nat.sub_le, min_eq_left]
  · intro hlt
    have hnotge : ¬ m.reorder_gap ≤ m.packet_buffer.length + batch.length :=
      by simpa using not_le.mpr hlt
    unfold OutOfOrderModule.ProcessBatch
    rw [m.appendToBuffer_eq]
    simp [hen, hnotge]

/-- C7 witness: gap 2 over a two-packet buffer emits one packet (the
post-shuffle head under a saturated reorder rate); a single packet under gap
3 is retained whole. -/
theorem c7_reorder_window_witness :
    (({ enabled := true, inbound_enabled := true, outbound_enabled := true,
        reorder_rate := 100, reorder_gap := 2, packet_buffer :=
          [{ data := [1], addr := ⟨true, false, 0, 0⟩, timestamp := 0,
             release_time := 0 }] : OutOfOrderModule }.ProcessBatch
        List.reverse ⟨fun _ => 7, 0⟩
        [{ data := [2], addr := ⟨true, false, 0, 0⟩, timestamp := 1,
           release_time := 0 }]).1.length = 2 - 2 / 2) ∧
    (({ enabled := true, inbound_enabled := true, outbound_enabled := true,
        reorder_rate := 100, reorder_gap := 3, packet_buffer := [] :
          OutOfOrderModule }.ProcessBatch List.reverse ⟨fun _ => 7, 0⟩
        [{ data := [2], addr := ⟨true, false, 0, 0⟩, timestamp := 1,
           release_time := 0 }]).1 = []) := by
  constructor
  · exact ((c7_reorder_window _ List.reverse _ _ rfl
      (fun l => List.length_reverse l)).1 (by norm_num)).2.2
  · exact ((c7_reorder_window _ List.reverse _ _ rfl
      (fun l => List.length_reverse l)).2 (by norm_num)).1

/-- Every entry of an enumerated list is an entry of the list. -/
theorem snd_mem_of_mem_enum {α : Type} {x : Nat × α} {l : List α}
    (h : x ∈ l.enum) : x.2 ∈ l := by
  have h2 := List.mem_enum_iff_getElem?.mp h
  exact List.getElem?_mem h2

/-- Packets emitted by the head-drain loop come from the queue it was given. -/
theorem drainQueue_out_subset (avail : ℚ) (l : List SimulatedPacket) :
    (drainQueue avail l).1 ⊆ l := by
  intro x hx
  rw [← drainQueue_conservation avail l]
  exact List.mem_append_left _ hx

/-- Packets retained by the head-drain loop come from the queue it was
given. -/
theorem drainQueue_rest_subset (avail : ℚ) (l : List SimulatedPacket) :
    (drainQueue avail l).2.1 ⊆ l := by
  intro x hx
  rw [← drainQueue_conservation avail l]
  exact List.mem_append_right _ hx

/-- The loss loop neither drops nor perturbs the gate-failing subsequence. -/
theorem PacketLossModule.loss_gate_fail_filter (m : PacketLossModule)
    (rng : RngState) (l : List SimulatedPacket) :
    (m.processList rng l).1.filter
        (fun p => !gatePass m.inbound_enabled m.outbound_enabled p) =
      l.filter (fun p => !gatePass m.inbound_enabled m.outbound_enabled p) := by
  induction l generalizing rng with
  | nil => rfl
  | cons p rest ih =>
    by_cases hg : ShouldProcess m.inbound_enabled m.outbound_enabled p.addr
    · have hgp : gatePass m.inbound_enabled m.outbound_enabled p = true := hg
      by_cases hd : (m.ShouldDrop rng).1
      · simp [PacketLossModule.processList, hg, hd, hgp, ih]
      · simp [PacketLossModule.processList, hg, hd, hgp, ih]
    · have hgp : gatePass m.inbound_enabled m.outbound_enabled p = false := by
        simpa [gatePass] using hg
      simp [PacketLossModule.processList, hg, hgp, ih]

/-- The duplicate loop neither duplicates nor perturbs the gate-failing
subsequence. -/
theorem DuplicateModule.dup_gate_fail_filter (m : DuplicateModule)
    (rng : RngState) (l : List SimulatedPacket) :
    (m.processList rng l).1.filter
        (fun p => !gatePass m.inbound_enabled m.outbound_enabled p) =
      l.filter (fun p => !gatePass m.inbound_enabled m.outbound_enabled p) := by
  induction l generalizing rng with
  | nil => rfl
  | cons p rest ih =>
    by_cases hg : ShouldProcess m.inbound_enabled m.outbound_enabled p.addr
    · have hgp : gatePass m.inbound_enabled m.outbound_enabled p = true := hg
      by_cases hd : (m.ShouldDuplicate rng).1
      · simp [DuplicateModule.processList, hg, hd, hgp, ih,
          List.filter_append, List.filter_replicate]
      · simp [DuplicateModule.processList, hg, hd, hgp, ih]
    · have hgp : gatePass m.inbound_enabled m.outbound_enabled p = false := by
        simpa [gatePass] using hg
      simp [DuplicateModule.processList, hg, hgp, ih]

/-- C1 counterexample: the claim fails on the reorder stage.  An enabled
reorder stage with `inbound_enabled = false`, the default gap 3 and an empty
buffer receives one inbound packet; the packet contradicts the stage's
enabled direction, yet `ProcessBatch` emits nothing and retains the packet
in the FIFO buffer. -/
theorem c1_counterexample :
    (({ enabled := true, inbound_enabled := false, outbound_enabled := true,
        reorder_rate := 0, reorder_gap := 3, packet_buffer := [] :
          OutOfOrderModule }.ProcessBatch id ⟨fun _ => 7, 0⟩
        [{ data := [1], addr := ⟨false, false, 0, 0⟩, timestamp := 0,
           release_time := 0 }]).1 = []) ∧
    (({ enabled := true, inbound_enabled := false, outbound_enabled := true,
        reorder_rate := 0, reorder_gap := 3, packet_buffer := [] :
          OutOfOrderModule }.ProcessBatch id ⟨fun _ => 7, 0⟩
        [{ data := [1], addr := ⟨false, false, 0, 0⟩, timestamp := 0,
           release_time := 0 }]).2.1.packet_buffer =
      [{ data := [1], addr := ⟨false, false, 0, 0⟩, timestamp := 0,
         release_time := 0 }]) ∧
    ShouldProcess false true ⟨false, false, 0, 0⟩ = false :=
  ⟨rfl, rfl, rfl⟩

/-- C1 (amended): in the loss, duplicate, jitter, bandwidth and latency
stages, every packet whose `outbound` attribute contradicts the stage's
enabled direction is emitted by `process_batch` unchanged (the gate-failing
subsequence of the output equals that of the input) and is never retained in
the stage's internal buffer (stated with the buffer initially empty); in the
reorder stage, however, the gate result is ignored and every packet —
gate-failing or not — is appended to the FIFO buffer and subjected to the
buffer's emit policy (here stated for a batch below the gap: nothing is
emitted and the whole batch is retained). -/
theorem c1_direction_gate_amended (lossm : PacketLossModule)
    (dupm : DuplicateModule) (jitm : JitterModule) (latm : LatencyModule)
    (bwm : BandwidthModule) (ordm : OutOfOrderModule)
    (shuffle : List SimulatedPacket → List SimulatedPacket) (d : Nat → Nat)
    (now : ℚ) (rng : RngState) (batch : List SimulatedPacket)
    (hjen : jitm.enabled = true) (hlen : latm.enabled = true)
    (hben : bwm.enabled = true) (hoen : ordm.enabled = true)
    (hjit : jitm.delayed_packets = []) (hlat : latm.delayed_packets = [])
    (hbw : bwm.packet_queue = []) (hord : ordm.packet_buffer = [])
    (hordlen : batch.length < ordm.reorder_gap) :
    ((lossm.ProcessBatch rng batch).1.filter
        (fun p => !gatePass lossm.inbound_enabled lossm.outbound_enabled p) =
      batch.filter
        (fun p => !gatePass lossm.inbound_enabled lossm.outbound_enabled p)) ∧
    ((dupm.ProcessBatch rng batch).1.filter
        (fun p => !gatePass dupm.inbound_enabled dupm.outbound_enabled p) =
      batch.filter
        (fun p => !gatePass dupm.inbound_enabled dupm.outbound_enabled p)) ∧
    ((jitm.ProcessBatch d now batch).1 = batch.filter
        (fun p => !gatePass jitm.inbound_enabled jitm.outbound_enabled p) ∧
      (jitm.ProcessBatch d now batch).2.delayed_packets.filter
        (fun p => !gatePass jitm.inbound_enabled jitm.outbound_enabled p) =
        []) ∧
    ((latm.ProcessBatch now batch).1 = batch.filter
        (fun p => !gatePass latm.inbound_enabled latm.outbound_enabled p) ∧
      (latm.ProcessBatch now batch).2.delayed_packets.filter
        (fun p => !gatePass latm.inbound_enabled latm.outbound_enabled p) =
        []) ∧
    ((bwm.ProcessBatch now batch).1.filter
        (fun p => !gatePass bwm.inbound_enabled bwm.outbound_enabled p) =
      batch.filter
        (fun p => !gatePass bwm.inbound_enabled bwm.outbound_enabled p) ∧
      (bwm.ProcessBatch now batch).2.packet_queue.filter
        (fun p => !gatePass bwm.inbound_enabled bwm.outbound_enabled p) =
        []) ∧
    ((ordm.ProcessBatch shuffle rng batch).1 = [] ∧
      (ordm.ProcessBatch shuffle rng batch).2.1.packet_buffer = batch) := by
  refine ⟨?_, ?_, ⟨?_, ?_⟩, ⟨?_, ?_⟩, ⟨?_, ?_⟩, ?_⟩
  · by_cases h : lossm.enabled
    · simp [PacketLossModule.ProcessBatch, h,
        lossm.loss_gate_fail_filter rng batch]
    · simp [PacketLossModule.ProcessBatch, h]
  · by_cases h : dupm.enabled
    · simp [DuplicateModule.ProcessBatch, h,
        dupm.dup_gate_fail_filter rng batch]
    · simp [DuplicateModule.ProcessBatch, h]
  · simp [JitterModule.ProcessBatch, hjen]
  · rw [List.filter_eq_nil_iff]
    intro q hq
    simp only [JitterModule.ProcessBatch, hjen, Bool.not_true,
      Bool.false_eq_true, if_false, hjit, List.nil_append] at hq
    rcases List.mem_map.mp hq with ⟨ip, hip, hq2⟩
    have h2 := snd_mem_of_mem_enum hip
    have h3 := List.of_mem_filter h2
    subst hq2
    simp [gatePass_release, h3]
  · simp [LatencyModule.ProcessBatch, hlen]
  · rw [List.filter_eq_nil_iff]
    intro q hq
    simp only [LatencyModule.ProcessBatch, hlen, Bool.not_true,
      Bool.false_eq_true, if_false, hlat, List.nil_append] at hq
    rcases List.mem_map.mp hq with ⟨p, hp, hq2⟩
    have h3 := List.of_mem_filter hp
    subst hq2
    simp [gatePass_release, h3]
  · have hdrain : ∀ q ∈ (drainQueue
        (bwm.RefillTokenBucket now).available_bytes
        ((bwm.RefillTokenBucket now).packet_queue ++ batch.filter
          (fun p => gatePass bwm.inbound_enabled bwm.outbound_enabled p))).1,
        gatePass bwm.inbound_enabled bwm.outbound_enabled q = true := by
      intro q hq
      have h2 := drainQueue_out_subset _ _ hq
      rw [List.mem_append] at h2
      rcases h2 with h2 | h2
      · simp [BandwidthModule.RefillTokenBucket, hbw] at h2
      · exact List.of_mem_filter h2
    simp only [BandwidthModule.ProcessBatch, hben, Bool.not_true,
      Bool.false_eq_true, if_false, List.filter_append]
    rw [List.filter_filter]
    have h1 : batch.filter (fun p =>
        !gatePass bwm.inbound_enabled bwm.outbound_enabled p &&
          !gatePass bwm.inbound_enabled bwm.outbound_enabled p) =
        batch.filter
          (fun p => !gatePass bwm.inbound_enabled bwm.outbound_enabled p) :=
      by simp
    have h2 : (drainQueue (bwm.RefillTokenBucket now).available_bytes
        ((bwm.RefillTokenBucket now).packet_queue ++ batch.filter
          (fun p =>
            gatePass bwm.inbound_enabled bwm.outbound_enabled p))).1.filter
        (fun p => !gatePass bwm.inbound_enabled bwm.outbound_enabled p) =
        [] := by
      rw [List.filter_eq_nil_iff]
      intro q hq
      simp [hdrain q hq]
    rw [h1, h2, List.append_nil]
  · have hrest : ∀ q ∈ (drainQueue
        (bwm.RefillTokenBucket now).available_bytes
        ((bwm.RefillTokenBucket now).packet_queue ++ batch.filter
          (fun p => gatePass bwm.inbound_enabled bwm.outbound_enabled p))).2.1,
        gatePass bwm.inbound_enabled bwm.outbound_enabled q = true := by
      intro q hq
      have h2 := drainQueue_rest_subset _ _ hq
      rw [List.mem_append] at h2
      rcases h2 with h2 | h2
      · simp [BandwidthModule.RefillTokenBucket, hbw] at h2
      · exact List.of_mem_filter h2
    simp only [BandwidthModule.ProcessBatch, hben, Bool.not_true,
      Bool.false_eq_true, if_false]
    rw [List.filter_eq_nil_iff]
    intro q hq
    simp [hrest q hq]
  · have hnotge : ¬ ordm.reorder_gap ≤ batch.length := not_le.mpr hordlen
    constructor
    · unfold OutOfOrderModule.ProcessBatch
      rw [ordm.appendToBuffer_eq, hord]
      simp [hoen, hnotge]
    · unfold OutOfOrderModule.ProcessBatch
      rw [ordm.appendToBuffer_eq, hord]
      simp [hoen, hnotge]

/-- C1 witness: one inbound packet against outbound-only stages — emitted
unchanged by the loss and jitter stages, silently buffered by the reorder
stage. -/
theorem c1_direction_gate_witness :
    (({ enabled := true, inbound_enabled := false, outbound_enabled := true,
        loss_rate := 100 : PacketLossModule }.ProcessBatch ⟨fun _ => 7, 0⟩
        [{ data := [1], addr := ⟨false, false, 0, 0⟩, timestamp := 0,
           release_time := 0 }]).1.filter
        (fun p => !gatePass false true p) =
      [{ data := [1], addr := ⟨false, false, 0, 0⟩, timestamp := 0,
         release_time := 0 }]) ∧
    (({ enabled := true, inbound_enabled := false, outbound_enabled := true,
        min_jitter := 5, max_jitter := 5, delayed_packets := [] :
          JitterModule }.ProcessBatch (fun _ => 0) 0
        [{ data := [1], addr := ⟨false, false, 0, 0⟩, timestamp := 0,
           release_time := 0 }]).1 =
      [{ data := [1], addr := ⟨false, false, 0, 0⟩, timestamp := 0,
         release_time := 0 }]) ∧
    (({ enabled := true, inbound_enabled := false, outbound_enabled := true,
        reorder_rate := 0, reorder_gap := 3, packet_buffer := [] :
          OutOfOrderModule }.ProcessBatch id ⟨fun _ => 7, 0⟩
        [{ data := [1], addr := ⟨false, false, 0, 0⟩, timestamp := 0,
           release_time := 0 }]).1 = []) := by
  have h := c1_direction_gate_amended
    { enabled := true, inbound_enabled := false, outbound_enabled := true,
      loss_rate := 100 }
    { enabled := true, inbound_enabled := false, outbound_enabled := true,
      duplication_rate := 100, duplicate_count := 3 }
    { enabled := true, inbound_enabled := false, outbound_enabled := true,
      min_jitter := 5, max_jitter := 5, delayed_packets := [] }
    { enabled := true, inbound_enabled := false, outbound_enabled := true,
      latency := 100, delayed_packets := [] }
    { enabled := true, inbound_enabled := false, outbound_enabled := true,
      bandwidth_kbps := 56, last_refill_time := 0, available_bytes := 0,
      max_burst_bytes := 7000, packet_queue := [] }
    { enabled := true, inbound_enabled := false, outbound_enabled := true,
      reorder_rate := 0, reorder_gap := 3, packet_buffer := [] }
    id (fun _ => 0) 0 ⟨fun _ => 7, 0⟩
    [{ data := [1], addr := ⟨false, false, 0, 0⟩, timestamp := 0,
       release_time := 0 }]
    rfl rfl rfl rfl rfl rfl rfl rfl (by norm_num)
  exact ⟨h.1.trans rfl, (h.2.2.1).1.trans rfl, h.2.2.2.2.2.1⟩

/-- C2 is violated by the code (`Stop`'s final drain does not empty enabled
stages): with the latency stage enabled and holding a packet whose release
deadline (5000 ms) is still pending when the final `GetReleasablePackets`
runs at 300 ms, the packet stays in the latency heap; an enabled reorder
stage keeps its whole FIFO (its drain returns nothing while enabled); and an
enabled bandwidth stage keeps any queued packet its token balance cannot
cover.  `Stop`'s own comment says "Flush any remaining delayed packets", and
the spec says the final drain exists "to prevent leaks", but
`GetReleasablePackets` only flushes unconditionally when a stage is
disabled. -/
theorem c2_stop_retains_packets :
    ((stopDrain
        { enabled := true, inbound_enabled := true, outbound_enabled := true,
          latency := 5000, delayed_packets :=
            [{ data := [1], addr := ⟨true, false, 0, 0⟩, timestamp := 0,
               release_time := 5000 }] }
        { enabled := true, inbound_enabled := true, outbound_enabled := true,
          min_jitter := 0, max_jitter := 50, delayed_packets := [] }
        { enabled := true, inbound_enabled := true, outbound_enabled := true,
          bandwidth_kbps := 0, last_refill_time := 0, available_bytes := 0,
          max_burst_bytes := 0, packet_queue :=
            [{ data := [2], addr := ⟨true, false, 0, 0⟩, timestamp := 0,
               release_time := 0 }] }
        { enabled := true, inbound_enabled := true, outbound_enabled := true,
          reorder_rate := 0, reorder_gap := 3, packet_buffer :=
            [{ data := [3], addr := ⟨true, false, 0, 0⟩, timestamp := 0,
               release_time := 0 }] }
        300).1.delayed_packets =
      [{ data := [1], addr := ⟨true, false, 0, 0⟩, timestamp := 0,
         release_time := 5000 }]) ∧
    ((stopDrain
        { enabled := true, inbound_enabled := true, outbound_enabled := true,
          latency := 5000, delayed_packets :=
            [{ data := [1], addr := ⟨true, false, 0, 0⟩, timestamp := 0,
               release_time := 5000 }] }
        { enabled := true, inbound_enabled := true, outbound_enabled := true,
          min_jitter := 0, max_jitter := 50, delayed_packets := [] }
        { enabled := true, inbound_enabled := true, outbound_enabled := true,
          bandwidth_kbps := 0, last_refill_time := 0, available_bytes := 0,
          max_burst_bytes := 0, packet_queue :=
            [{ data := [2], addr := ⟨true, false, 0, 0⟩, timestamp := 0,
               release_time := 0 }] }
        { enabled := true, inbound_enabled := true, outbound_enabled := true,
          reorder_rate := 0, reorder_gap := 3, packet_buffer :=
            [{ data := [3], addr := ⟨true, false, 0, 0⟩, timestamp := 0,
               release_time := 0 }] }
        300).2.2.1.packet_queue =
      [{ data := [2], addr := ⟨true, false, 0, 0⟩, timestamp := 0,
         release_time := 0 }]) ∧
    ((stopDrain
        { enabled := true, inbound_enabled := true, outbound_enabled := true,
          latency := 5000, delayed_packets :=
            [{ data := [1], addr := ⟨true, false, 0, 0⟩, timestamp := 0,
               release_time := 5000 }] }
        { enabled := true, inbound_enabled := true, outbound_enabled := true,
          min_jitter := 0, max_jitter := 50, delayed_packets := [] }
        { enabled := true, inbound_enabled := true, outbound_enabled := true,
          bandwidth_kbps := 0, last_refill_time := 0, available_bytes := 0,
          max_burst_bytes := 0, packet_queue :=
            [{ data := [2], addr := ⟨true, false, 0, 0⟩, timestamp := 0,
               release_time := 0 }] }
        { enabled := true, inbound_enabled := true, outbound_enabled := true,
          reorder_rate := 0, reorder_gap := 3, packet_buffer :=
            [{ data := [3], addr := ⟨true, false, 0, 0⟩, timestamp := 0,
               release_time := 0 }] }
        300).2.2.2.packet_buffer =
      [{ data := [3], addr := ⟨true, false, 0, 0⟩, timestamp := 0,
         release_time := 0 }]) := by
  refine ⟨by decide, ?_, by decide⟩
  norm_num [stopDrain, BadLink.BandwidthModule.GetReleasablePackets,
    BadLink.BandwidthModule.RefillTokenBucket, drainQueue]

/-- Byte totals are nonnegative. -/
theorem sumBytes_nonneg (l : List SimulatedPacket) : 0 ≤ sumBytes l := by
  induction l with
  | nil => simp [sumBytes]
  | cons p rest ih =>
    simp only [sumBytes, List.map_cons, List.sum_cons] at ih ⊢
    positivity

/-- The head-drain loop never increases the token balance. -/
theorem drainQueue_le (avail : ℚ) (l : List SimulatedPacket) :
    (drainQueue avail l).2.2 ≤ avail := by
  have h := drainQueue_bytes avail l
  have h2 := sumBytes_nonneg (drainQueue avail l).1
  linarith

/-- C3 counterexample: starting from the constructor state (1 Mbps burst),
enable the stage at time 0, refill after two seconds (bucket saturates at
125000 bytes), then call `SetBandwidthLimit 56`: `max_burst_bytes` drops to
7000 while `available_bytes` stays at 125000, violating
`available_bytes ≤ max_burst_bytes` directly after the operation. -/
theorem c3_counterexample :
    ((({ enabled := false, inbound_enabled := true, outbound_enabled := true,
         bandwidth_kbps := 1000, last_refill_time := 0,
         available_bytes := 0, max_burst_bytes := 125000,
         packet_queue := [] : BandwidthModule }.SetEnabled true
        0).RefillTokenBucket 2000).SetBandwidthLimit 56).max_burst_bytes <
      ((({ enabled := false, inbound_enabled := true,
           outbound_enabled := true, bandwidth_kbps := 1000,
           last_refill_time := 0, available_bytes := 0,
           max_burst_bytes := 125000, packet_queue := [] :
             BandwidthModule }.SetEnabled true
          0).RefillTokenBucket 2000).SetBandwidthLimit 56).available_bytes :=
  by
  norm_num [BandwidthModule.SetEnabled, BandwidthModule.RefillTokenBucket,
    BandwidthModule.SetBandwidthLimit]

/-- C3 (amended): `available_bytes` never goes negative under any operation;
`available_bytes ≤ max_burst_bytes` holds after `SetEnabled(true)`, after
every refill, and after every `process_batch` / `drain_due` of the enabled
stage; each refill adds exactly `kbps · 125 · Δt_seconds` bytes saturated at
`max_burst_bytes`, and `SetBandwidthLimit` sets
`max_burst_bytes = kbps · 125` — but leaves `available_bytes` untouched, so
the upper bound may be violated between a rate reduction and the next
refill. -/
theorem c3_token_bucket_amended (m : BandwidthModule) (now : ℚ) (kbps : Nat)
    (batch : List SimulatedPacket) (hav : 0 ≤ m.available_bytes)
    (hburst : 0 ≤ m.max_burst_bytes) (hnow : m.last_refill_time ≤ now) :
    (0 ≤ (m.SetBandwidthLimit kbps).available_bytes) ∧
    (0 ≤ (m.SetEnabled true now).available_bytes) ∧
    (0 ≤ (m.RefillTokenBucket now).available_bytes) ∧
    (0 ≤ (m.ProcessBatch now batch).2.available_bytes) ∧
    (0 ≤ (m.GetReleasablePackets now).2.available_bytes) ∧
    ((m.RefillTokenBucket now).available_bytes ≤ m.max_burst_bytes) ∧
    ((m.SetEnabled true now).available_bytes ≤ m.max_burst_bytes) ∧
    (m.enabled = true →
      (m.ProcessBatch now batch).2.available_bytes ≤ m.max_burst_bytes) ∧
    (m.enabled = true →
      (m.GetReleasablePackets now).2.available_bytes ≤ m.max_burst_bytes) ∧
    ((m.RefillTokenBucket now).available_bytes =
      min (m.available_bytes +
        (m.bandwidth_kbps : ℚ) * 125 * ((now - m.last_refill_time) / 1000))
        m.max_burst_bytes) ∧
    ((m.SetBandwidthLimit kbps).max_burst_bytes = (kbps : ℚ) * 125) ∧
    ((m.SetBandwidthLimit kbps).available_bytes = m.available_bytes) := by
  have hadd : (0 : ℚ) ≤
      (m.bandwidth_kbps : ℚ) * 1000 / 8 * ((now - m.last_refill_time) / 1000) := by
    have h1 : (0 : ℚ) ≤ (m.bandwidth_kbps : ℚ) := by positivity
    have h2 : (0 : ℚ) ≤ now - m.last_refill_time := by linarith
    positivity
  have hrefill_lo : 0 ≤ (m.RefillTokenBucket now).available_bytes := by
    unfold BandwidthModule.RefillTokenBucket
    simp only
    apply le_min
    · linarith
    · exact hburst
  have hrefill_hi :
      (m.RefillTokenBucket now).available_bytes ≤ m.max_burst_bytes := by
    unfold BandwidthModule.RefillTokenBucket
    simp only
    exact min_le_right _ _
  have hqueue_eq : (m.RefillTokenBucket now).packet_queue = m.packet_queue :=
    rfl
  refine ⟨?_, ?_, hrefill_lo, ?_, ?_, hrefill_hi, ?_, ?_, ?_, ?_, ?_, ?_⟩
  · exact hav
  · simp only [BandwidthModule.SetEnabled, if_true]
    linarith
  · unfold BandwidthModule.ProcessBatch
    by_cases h : m.enabled
    · simp only [h, Bool.not_true, Bool.false_eq_true, if_false]
      exact drainQueue_nonneg _ _ hrefill_lo
    · simp only [h, Bool.not_false, if_true]
      exact hav
  · unfold BandwidthModule.GetReleasablePackets
    by_cases h : m.enabled
    · simp only [h, Bool.not_true, Bool.false_eq_true, if_false]
      exact drainQueue_nonneg _ _ hrefill_lo
    · simp only [h, Bool.not_false, if_true]
      exact hav
  · simp only [BandwidthModule.SetEnabled, if_true]
    linarith
  · intro h
    unfold BandwidthModule.ProcessBatch
    simp only [h, Bool.not_true, Bool.false_eq_true, if_false]
    exact le_trans (drainQueue_le _ _) hrefill_hi
  · intro h
    unfold BandwidthModule.GetReleasablePackets
    simp only [h, Bool.not_true, Bool.false_eq_true, if_false]
    exact le_trans (drainQueue_le _ _) hrefill_hi
  · unfold BandwidthModule.RefillTokenBucket
    simp only
    have heq : (m.bandwidth_kbps : ℚ) * 1000 / 8 *
        ((now - m.last_refill_time) / 1000) =
        (m.bandwidth_kbps : ℚ) * 125 * ((now - m.last_refill_time) / 1000) :=
      by ring
    rw [heq]
  · unfold BandwidthModule.SetBandwidthLimit
    simp only
    ring
  · rfl

/-- C3 witness: concrete instantiation of the amended invariant at a
half-full bucket. -/
theorem c3_token_bucket_witness :
    0 ≤ ({ enabled := true, inbound_enabled := true, outbound_enabled := true,
           bandwidth_kbps := 56, last_refill_time := 0,
           available_bytes := 3500, max_burst_bytes := 7000,
           packet_queue := [] : BandwidthModule }.RefillTokenBucket
          500).available_bytes ∧
    ({ enabled := true, inbound_enabled := true, outbound_enabled := true,
       bandwidth_kbps := 56, last_refill_time := 0, available_bytes := 3500,
       max_burst_bytes := 7000, packet_queue := [] :
         BandwidthModule }.RefillTokenBucket 500).available_bytes ≤ 7000 :=
  by
  have h := c3_token_bucket_amended
    { enabled := true, inbound_enabled := true, outbound_enabled := true,
      bandwidth_kbps := 56, last_refill_time := 0, available_bytes := 3500,
      max_burst_bytes := 7000, packet_queue := [] } 500 56 []
    (by norm_num) (by norm_num) (by norm_num)
  exact ⟨h.2.2.1, h.2.2.2.2.2.1⟩

/-- A packet absent from the enabled latency heap never appears in any later
drain output. -/
theorem LatencyModule.runDrains_not_mem :
    ∀ (us : List ℚ) (m : LatencyModule) (q : SimulatedPacket),
      m.enabled = true → q ∉ m.delayed_packets → ∀ i, i < us.length →
        q ∉ (m.runDrains us).1.getD i [] := by
  intro us
  induction us with
  | nil =>
    intro m q hen hq i hi
    simp at hi
  | cons u us ih =>
    intro m q hen hq i hi
    have hr1 : (m.GetReleasablePackets u).1 =
        m.delayed_packets.filter fun p => (p.release_time ≤ u : Bool) := by
      simp [LatencyModule.GetReleasablePackets, hen]
    have hr2heap : (m.GetReleasablePackets u).2.delayed_packets =
        m.delayed_packets.filter fun p => !(p.release_time ≤ u : Bool) := by
      simp [LatencyModule.GetReleasablePackets, hen]
    have hr2en : (m.GetReleasablePackets u).2.enabled = true := by
      simp [LatencyModule.GetReleasablePackets, hen]
    match i with
    | 0 =>
      simp only [LatencyModule.runDrains, List.getD_cons_zero, hr1]
      intro hmem
      exact hq (List.mem_of_mem_filter hmem)
    | Nat.succ j =>
      have hj : j < us.length := by simpa using hi
      simp only [LatencyModule.runDrains, List.getD_cons_succ]
      have hnot : q ∉ (m.GetReleasablePackets u).2.delayed_packets := by
        rw [hr2heap]
        intro hmem2
        exact hq (List.mem_of_mem_filter hmem2)
      exact ih (m.GetReleasablePackets u).2 q hr2en hnot j hj

/-- A packet in the enabled latency heap appears in the output of the `i`-th
drain exactly when that drain is the first one invoked at or after the
packet's release time. -/
theorem LatencyModule.runDrains_mem_iff :
    ∀ (us : List ℚ) (m : LatencyModule) (q : SimulatedPacket),
      m.enabled = true → q ∈ m.delayed_packets → ∀ i, i < us.length →
        (q ∈ (m.runDrains us).1.getD i [] ↔
          (q.release_time ≤ us.getD i 0 ∧
            ∀ j, j < i → ¬ q.release_time ≤ us.getD j 0)) := by
  intro us
  induction us with
  | nil =>
    intro m q hen hq i hi
    simp at hi
  | cons u us ih =>
    intro m q hen hq i hi
    have hr1 : (m.GetReleasablePackets u).1 =
        m.delayed_packets.filter fun p => (p.release_time ≤ u : Bool) := by
      simp [LatencyModule.GetReleasablePackets, hen]
    have hr2heap : (m.GetReleasablePackets u).2.delayed_packets =
        m.delayed_packets.filter fun p => !(p.release_time ≤ u : Bool) := by
      simp [LatencyModule.GetReleasablePackets, hen]
    have hr2en : (m.GetReleasablePackets u).2.enabled = true := by
      simp [LatencyModule.GetReleasablePackets, hen]
    match i with
    | 0 =>
      simp only [LatencyModule.runDrains, List.getD_cons_zero, hr1,
        List.mem_filter]
      constructor
      · intro hmem
        refine ⟨by simpa using hmem.2, ?_⟩
        intro j hj
        omega
      · intro h
        exact ⟨hq, by simpa using h.1⟩
    | Nat.succ j =>
      have hj : j < us.length := by simpa using hi
      simp only [LatencyModule.runDrains, List.getD_cons_succ]
      by_cases hrel : q.release_time ≤ u
      · constructor
        · intro hmem
          exfalso
          have hnot : q ∉ (m.GetReleasablePackets u).2.delayed_packets := by
            rw [hr2heap]
            intro hmem2
            have h2 := (List.mem_filter.mp hmem2).2
            simp [hrel] at h2
          exact LatencyModule.runDrains_not_mem us _ q hr2en hnot j hj hmem
        · rintro ⟨h1, h2⟩
          exact absurd hrel (by simpa using h2 0 (Nat.succ_pos j))
      · have hq2 : q ∈ (m.GetReleasablePackets u).2.delayed_packets := by
          rw [hr2heap]
          exact List.mem_filter.mpr ⟨hq, by simpa using hrel⟩
        rw [ih (m.GetReleasablePackets u).2 q hr2en hq2 j hj]
        constructor
        · rintro ⟨h1, h2⟩
          refine ⟨by simpa using h1, ?_⟩
          intro j2 hj2
          match j2 with
          | 0 => simpa using hrel
          | Nat.succ j3 =>
            have h3 : j3 < j := by omega
            simpa using h2 j3 h3
        · rintro ⟨h1, h2⟩
          refine ⟨by simpa using h1, ?_⟩
          intro j3 hj3
          have h4 := h2 (j3 + 1) (by omega)
          simpa using h4

/-- C8: a gate-passing packet entering the enabled latency stage's
`process_batch` at time `t` with `delay_ms = D` is stored with release time
`t + D`, and over any sequence of `drain_due` invocation times it appears in
the output of the `i`-th drain exactly when that drain is invoked at or
after `t + D` and every earlier drain was invoked strictly before `t + D` —
in particular it appears in no drain invoked earlier than `t + D`, and in
the first drain invoked at or after it. -/
theorem c8_latency_release (m : LatencyModule) (p : SimulatedPacket)
    (t D : ℚ) (batch : List SimulatedPacket) (us : List ℚ) (i : Nat)
    (hen : m.enabled = true) (hD : m.latency = D) (hp : p ∈ batch)
    (hg : gatePass m.inbound_enabled m.outbound_enabled p = true)
    (hi : i < us.length) :
    ({ p with release_time := t + D } ∈
      (m.ProcessBatch t batch).2.delayed_packets) ∧
    ({ p with release_time := t + D } ∈
        ((m.ProcessBatch t batch).2.runDrains us).1.getD i [] ↔
      (t + D ≤ us.getD i 0 ∧ ∀ j, j < i → ¬ t + D ≤ us.getD j 0)) := by
  have hheap : (m.ProcessBatch t batch).2.delayed_packets =
      m.delayed_packets ++
        ((batch.filter fun p =>
            gatePass m.inbound_enabled m.outbound_enabled p).map
          fun p => { p with release_time := t + m.latency }) := by
    simp [LatencyModule.ProcessBatch, hen]
  have hen2 : (m.ProcessBatch t batch).2.enabled = true := by
    simp [LatencyModule.ProcessBatch, hen]
  have hmem : { p with release_time := t + D } ∈
      (m.ProcessBatch t batch).2.delayed_packets := by
    rw [hheap]
    refine List.mem_append_right _ (List.mem_map.mpr ⟨p, ?_, ?_⟩)
    · exact List.mem_filter.mpr ⟨hp, hg⟩
    · rw [hD]
  refine ⟨hmem, ?_⟩
  have h := LatencyModule.runDrains_mem_iff us (m.ProcessBatch t batch).2
    { p with release_time := t + D } hen2 hmem i hi
  simpa using h

/-- C8 witness: `D = 100`, packet captured at `t = 0`, drains at 50, 150 and
250 ms: the packet is released by the second drain (the first at or after
100 ms). -/
theorem c8_latency_release_witness :
    ({ data := [1], addr := ⟨true, false, 0, 0⟩, timestamp := 0,
       release_time := (0 : ℚ) + 100 } ∈
        ((({ enabled := true, inbound_enabled := true,
             outbound_enabled := true, latency := 100,
             delayed_packets := [] : LatencyModule }.ProcessBatch 0
            [{ data := [1], addr := ⟨true, false, 0, 0⟩, timestamp := 0,
               release_time := 0 }]).2.runDrains [50, 150, 250]).1.getD 1 [])
      ↔ ((0 : ℚ) + 100 ≤ 150 ∧ ∀ j, j < 1 → ¬ (0 : ℚ) + 100 ≤
          [(50 : ℚ), 150, 250].getD j 0)) := by
  have h := c8_latency_release
    { enabled := true, inbound_enabled := true, outbound_enabled := true,
      latency := 100, delayed_packets := [] }
    { data := [1], addr := ⟨true, false, 0, 0⟩, timestamp := 0,
      release_time := 0 }
    0 100
    [{ data := [1], addr := ⟨true, false, 0, 0⟩, timestamp := 0,
       release_time := 0 }]
    [50, 150, 250] 1 rfl rfl (by simp) rfl (by norm_num)
  simpa using h.2

/-- Reorder `process_batch` conservation: emitted plus retained is a
permutation of incoming plus previously buffered. -/
theorem OutOfOrderModule.reorder_pb_conserves (m : OutOfOrderModule)
    (shuffle : List SimulatedPacket → List SimulatedPacket) (rng : RngState)
    (batch : List SimulatedPacket)
    (hshuf : ∀ l, (shuffle l).Perm l) :
    ((m.ProcessBatch shuffle rng batch).1 ++
      (m.ProcessBatch shuffle rng batch).2.1.packet_buffer).Perm
      (batch ++ m.packet_buffer) := by
  unfold OutOfOrderModule.ProcessBatch
  by_cases hen : m.enabled
  · simp only [hen, Bool.not_true, Bool.false_eq_true, if_false]
    rw [m.appendToBuffer_eq]
    by_cases hgap : m.reorder_gap ≤ (m.packet_buffer ++ batch).length
    · have hgap2 : m.reorder_gap ≤ m.packet_buffer.length + batch.length :=
        by simpa using hgap
      simp only [List.length_append, hgap2, if_true]
      rw [List.take_append_drop]
      refine List.Perm.trans ?_ List.perm_append_comm
      by_cases hr : (m.ShouldReorder rng).1
      · simp only [hr, if_true]
        unfold OutOfOrderModule.shuffled
        by_cases hone : (m.packet_buffer ++ batch).length ≤ 1
        · simp only [hone, if_true]
          exact List.Perm.refl _
        · simp only [hone, if_false]
          exact hshuf _
      · simp only [hr, Bool.false_eq_true, if_false]
        exact List.Perm.refl _
    · have hgap2 : ¬ m.reorder_gap ≤ m.packet_buffer.length + batch.length :=
        by simpa using hgap
      simp only [List.length_append, hgap2, if_false, List.nil_append]
      exact List.perm_append_comm
  · have hf : m.enabled = false := by simpa using hen
    simp only [hf, Bool.not_false, if_true]
    exact List.Perm.refl _

/-- Reorder `drain_due` conservation. -/
theorem OutOfOrderModule.reorder_drain_conserves (m : OutOfOrderModule) :
    (m.GetReleasablePackets.1 ++ m.GetReleasablePackets.2.packet_buffer).Perm
      m.packet_buffer := by
  unfold OutOfOrderModule.GetReleasablePackets
  by_cases hen : m.enabled <;> simp [hen]

/-- Jitter `process_batch` conservation (release times erased: the stage
reschedules but neither destroys nor creates packet records). -/
theorem JitterModule.jitter_pb_conserves (m : JitterModule)
    (d : Nat → Nat) (now : ℚ) (batch : List SimulatedPacket) :
    (coreBag ((m.ProcessBatch d now batch).1 ++
      (m.ProcessBatch d now batch).2.delayed_packets)).Perm
      (coreBag (batch ++ m.delayed_packets)) := by
  unfold JitterModule.ProcessBatch
  by_cases hen : m.enabled
  · simp only [hen, Bool.not_true, Bool.false_eq_true, if_false]
    simp only [coreBag, List.map_append]
    have hmap : (((batch.filter fun p =>
        gatePass m.inbound_enabled m.outbound_enabled p).enum.map
          fun ip => { ip.2 with release_time :=
            now + (m.generateJitter d ip.1 : ℚ) }).map releaseErased) =
        ((batch.filter fun p =>
          gatePass m.inbound_enabled m.outbound_enabled p).map
            releaseErased) := by
      rw [List.map_map]
      have h2 : (releaseErased ∘ fun ip : Nat × SimulatedPacket =>
          { ip.2 with release_time := now + (m.generateJitter d ip.1 : ℚ) }) =
          (releaseErased ∘ Prod.snd) := by
        funext ip
        simp [Function.comp, releaseErased]
      rw [h2, ← List.map_map, List.enum_map_snd]
    rw [hmap]
    refine List.Perm.trans
      (List.Perm.append_left _ List.perm_append_comm) ?_
    rw [← List.append_assoc]
    refine List.Perm.append_right _ ?_
    rw [← List.map_append]
    apply List.Perm.map
    have h3 := List.filter_append_perm
      (fun p => !gatePass m.inbound_enabled m.outbound_enabled p) batch
    simpa using h3
  · have hf : m.enabled = false := by simpa using hen
    simp only [hf, Bool.not_false, if_true]
    exact List.Perm.refl _

/-- Jitter `drain_due` conservation. -/
theorem JitterModule.jitter_drain_conserves (m : JitterModule) (now : ℚ) :
    ((m.GetReleasablePackets now).1 ++
      (m.GetReleasablePackets now).2.delayed_packets).Perm
      m.delayed_packets := by
  unfold JitterModule.GetReleasablePackets
  by_cases hen : m.enabled
  · simp only [hen, Bool.not_true, Bool.false_eq_true, if_false]
    exact List.filter_append_perm _ _
  · simp [hen]

/-- Latency `process_batch` conservation (release times erased). -/
theorem LatencyModule.latency_pb_conserves (m : LatencyModule) (now : ℚ)
    (batch : List SimulatedPacket) :
    (coreBag ((m.ProcessBatch now batch).1 ++
      (m.ProcessBatch now batch).2.delayed_packets)).Perm
      (coreBag (batch ++ m.delayed_packets)) := by
  unfold LatencyModule.ProcessBatch
  by_cases hen : m.enabled
  · simp only [hen, Bool.not_true, Bool.false_eq_true, if_false]
    simp only [coreBag, List.map_append]
    have hmap : (((batch.filter fun p =>
        gatePass m.inbound_enabled m.outbound_enabled p).map
          fun p => { p with release_time := now + m.latency }).map
          releaseErased) =
        ((batch.filter fun p =>
          gatePass m.inbound_enabled m.outbound_enabled p).map
            releaseErased) := by
      rw [List.map_map]
      congr 1
    rw [hmap]
    refine List.Perm.trans
      (List.Perm.append_left _ List.perm_append_comm) ?_
    rw [← List.append_assoc]
    refine List.Perm.append_right _ ?_
    rw [← List.map_append]
    apply List.Perm.map
    have h3 := List.filter_append_perm
      (fun p => !gatePass m.inbound_enabled m.outbound_enabled p) batch
    simpa using h3
  · have hf : m.enabled = false := by simpa using hen
    simp only [hf, Bool.not_false, if_true]
    exact List.Perm.refl _

/-- Latency `drain_due` conservation. -/
theorem LatencyModule.latency_drain_conserves (m : LatencyModule) (now : ℚ) :
    ((m.GetReleasablePackets now).1 ++
      (m.GetReleasablePackets now).2.delayed_packets).Perm
      m.delayed_packets := by
  unfold LatencyModule.GetReleasablePackets
  by_cases hen : m.enabled
  · simp only [hen, Bool.not_true, Bool.false_eq_true, if_false]
    exact List.filter_append_perm _ _
  · simp [hen]

/-- Bandwidth `process_batch` conservation (literal: the stage never touches
packet contents). -/
theorem BandwidthModule.bandwidth_pb_conserves (m : BandwidthModule)
    (now : ℚ) (batch : List SimulatedPacket) :
    ((m.ProcessBatch now batch).1 ++
      (m.ProcessBatch now batch).2.packet_queue).Perm
      (batch ++ m.packet_queue) := by
  unfold BandwidthModule.ProcessBatch
  by_cases hen : m.enabled
  · simp only [hen, Bool.not_true, Bool.false_eq_true, if_false]
    have hcons := drainQueue_conservation
      (m.RefillTokenBucket now).available_bytes
      ((m.RefillTokenBucket now).packet_queue ++
        (batch.filter fun p =>
          gatePass m.inbound_enabled m.outbound_enabled p))
    rw [List.append_assoc, hcons]
    refine List.Perm.trans
      (List.Perm.append_left _ List.perm_append_comm) ?_
    rw [← List.append_assoc]
    refine List.Perm.append_right _ ?_
    have h3 := List.filter_append_perm
      (fun p => !gatePass m.inbound_enabled m.outbound_enabled p) batch
    simpa using h3
  · have hf : m.enabled = false := by simpa using hen
    simp only [hf, Bool.not_false, if_true]
    exact List.Perm.refl _

/-- Bandwidth `drain_due` conservation. -/
theorem BandwidthModule.bandwidth_drain_conserves (m : BandwidthModule) (now : ℚ) :
    ((m.GetReleasablePackets now).1 ++
      (m.GetReleasablePackets now).2.packet_queue).Perm
      m.packet_queue := by
  unfold BandwidthModule.GetReleasablePackets
  by_cases hen : m.enabled
  · simp only [hen, Bool.not_true, Bool.false_eq_true, if_false]
    rw [drainQueue_conservation]
    exact List.Perm.refl _
  · simp [hen]

/-- C10 (implicit): the reorder, jitter, latency and bandwidth stages
neither destroy nor create packets — for every `process_batch` and
`drain_due` call, enabled or disabled, the multiset of returned packets plus
the multiset retained in the stage's buffer afterwards equals the multiset of
input packets plus the multiset retained before the call (for the two
time-delay stages, packet identity is taken with the `release_at` scheduling
field erased, since those stages rewrite it on entry). -/
theorem c10_conservation (ordm : OutOfOrderModule) (jitm : JitterModule)
    (latm : LatencyModule) (bwm : BandwidthModule)
    (shuffle : List SimulatedPacket → List SimulatedPacket) (d : Nat → Nat)
    (rng : RngState) (now : ℚ) (batch : List SimulatedPacket)
    (hshuf : ∀ l, (shuffle l).Perm l) :
    (((ordm.ProcessBatch shuffle rng batch).1 ++
        (ordm.ProcessBatch shuffle rng batch).2.1.packet_buffer).Perm
      (batch ++ ordm.packet_buffer)) ∧
    ((ordm.GetReleasablePackets.1 ++
        ordm.GetReleasablePackets.2.packet_buffer).Perm
      ordm.packet_buffer) ∧
    ((coreBag ((jitm.ProcessBatch d now batch).1 ++
        (jitm.ProcessBatch d now batch).2.delayed_packets)).Perm
      (coreBag (batch ++ jitm.delayed_packets))) ∧
    (((jitm.GetReleasablePackets now).1 ++
        (jitm.GetReleasablePackets now).2.delayed_packets).Perm
      jitm.delayed_packets) ∧
    ((coreBag ((latm.ProcessBatch now batch).1 ++
        (latm.ProcessBatch now batch).2.delayed_packets)).Perm
      (coreBag (batch ++ latm.delayed_packets))) ∧
    (((latm.GetReleasablePackets now).1 ++
        (latm.GetReleasablePackets now).2.delayed_packets).Perm
      latm.delayed_packets) ∧
    (((bwm.ProcessBatch now batch).1 ++
        (bwm.ProcessBatch now batch).2.packet_queue).Perm
      (batch ++ bwm.packet_queue)) ∧
    (((bwm.GetReleasablePackets now).1 ++
        (bwm.GetReleasablePackets now).2.packet_queue).Perm
      bwm.packet_queue) :=
  ⟨ordm.reorder_pb_conserves shuffle rng batch hshuf,
   ordm.reorder_drain_conserves,
   jitm.jitter_pb_conserves d now batch,
   jitm.jitter_drain_conserves now,
   latm.latency_pb_conserves now batch,
   latm.latency_drain_conserves now,
   bwm.bandwidth_pb_conserves now batch,
   bwm.bandwidth_drain_conserves now⟩

/-- C10 witness: conservation instantiated for a concrete one-packet batch
through concrete reorder and bandwidth states. -/
theorem c10_conservation_witness :
    ((demoReorder.ProcessBatch id ⟨fun _ => 7, 0⟩ [demoPktIn]).1 ++
      (demoReorder.ProcessBatch id
        ⟨fun _ => 7, 0⟩ [demoPktIn]).2.1.packet_buffer).Perm
      ([demoPktIn] ++ [demoPktOut]) ∧
    ((demoBandwidth.GetReleasablePackets 0).1 ++
      (demoBandwidth.GetReleasablePackets 0).2.packet_queue).Perm
      [demoPktOut] := by
  have h := c10_conservation demoReorder
    { enabled := true, inbound_enabled := true, outbound_enabled := true,
      min_jitter := 0, max_jitter := 50, delayed_packets := [] }
    { enabled := true, inbound_enabled := true, outbound_enabled := true,
      latency := 100, delayed_packets := [] }
    demoBandwidth id (fun _ => 0) ⟨fun _ => 7, 0⟩ 0 [demoPktIn]
    (fun l => List.Perm.refl l)
  exact ⟨by simpa [demoReorder] using h.1,
    by simpa [demoBandwidth] using h.2.2.2.2.2.2.2⟩

/-- Field bookkeeping of an enabled `process_batch`. -/
theorem BandwidthModule.processBatch_fields (m : BandwidthModule) (now : ℚ)
    (batch : List SimulatedPacket) (hen : m.enabled = true) :
    (m.ProcessBatch now batch).2.enabled = true ∧
    (m.ProcessBatch now batch).2.bandwidth_kbps = m.bandwidth_kbps ∧
    (m.ProcessBatch now batch).2.max_burst_bytes = m.max_burst_bytes ∧
    (m.ProcessBatch now batch).2.last_refill_time = now ∧
    (m.ProcessBatch now batch).2.available_bytes =
      (drainQueue (m.RefillTokenBucket now).available_bytes
        ((m.RefillTokenBucket now).packet_queue ++
          (batch.filter fun p =>
            gatePass m.inbound_enabled m.outbound_enabled p))).2.2 := by
  refine ⟨?_, ?_, ?_, ?_, ?_⟩ <;>
    simp [BandwidthModule.ProcessBatch, BandwidthModule.RefillTokenBucket,
      hen]

/-- Field bookkeeping of an enabled `drain_due`. -/
theorem BandwidthModule.drain_fields (m : BandwidthModule) (now : ℚ)
    (hen : m.enabled = true) :
    (m.GetReleasablePackets now).2.enabled = true ∧
    (m.GetReleasablePackets now).2.bandwidth_kbps = m.bandwidth_kbps ∧
    (m.GetReleasablePackets now).2.max_burst_bytes = m.max_burst_bytes ∧
    (m.GetReleasablePackets now).2.last_refill_time = now ∧
    (m.GetReleasablePackets now).2.available_bytes =
      (drainQueue (m.RefillTokenBucket now).available_bytes
        (m.RefillTokenBucket now).packet_queue).2.2 := by
  refine ⟨?_, ?_, ?_, ?_, ?_⟩ <;>
    simp [BandwidthModule.GetReleasablePackets,
      BandwidthModule.RefillTokenBucket, hen]

/-- Refill bounds: the refilled balance is nonnegative, at most the burst,
and at most the old balance plus `kbps/8` bytes per elapsed millisecond. -/
theorem BandwidthModule.refill_bounds (m : BandwidthModule) (now : ℚ)
    (hav : 0 ≤ m.available_bytes) (hburst : 0 ≤ m.max_burst_bytes)
    (hnow : m.last_refill_time ≤ now) :
    0 ≤ (m.RefillTokenBucket now).available_bytes ∧
    (m.RefillTokenBucket now).available_bytes ≤ m.max_burst_bytes ∧
    (m.RefillTokenBucket now).available_bytes ≤
      m.available_bytes +
        ((m.bandwidth_kbps : ℚ) / 8) * (now - m.last_refill_time) := by
  have hadd : (0 : ℚ) ≤ (m.bandwidth_kbps : ℚ) * 1000 / 8 *
      ((now - m.last_refill_time) / 1000) := by
    have h1 : (0 : ℚ) ≤ (m.bandwidth_kbps : ℚ) := by positivity
    have h2 : (0 : ℚ) ≤ now - m.last_refill_time := by linarith
    positivity
  have heq : (m.bandwidth_kbps : ℚ) * 1000 / 8 *
      ((now - m.last_refill_time) / 1000) =
      ((m.bandwidth_kbps : ℚ) / 8) * (now - m.last_refill_time) := by ring
  unfold BandwidthModule.RefillTokenBucket
  simp only
  refine ⟨le_min (by linarith) hburst, min_le_right _ _, ?_⟩
  have h3 := min_le_left
    (m.available_bytes + (m.bandwidth_kbps : ℚ) * 1000 / 8 *
      ((now - m.last_refill_time) / 1000)) m.max_burst_bytes
  linarith

/-- Token-bucket bound over an arbitrary valid trace: the bytes released
from the queue are covered by the initial balance plus the refill budget of
the elapsed window. -/
theorem BandwidthModule.runShapedBytes_bound :
    ∀ (ops : List BwOp) (m : BandwidthModule) (hi : ℚ),
      m.enabled = true → 0 ≤ m.available_bytes →
      0 ≤ m.max_burst_bytes → m.last_refill_time ≤ hi →
      timesValid m.last_refill_time hi ops = true →
      m.runShapedBytes ops ≤
        m.available_bytes +
          ((m.bandwidth_kbps : ℚ) / 8) * (hi - m.last_refill_time) := by
  intro ops
  induction ops with
  | nil =>
    intro m hi hen hav hburst hhi _
    have hc : (0 : ℚ) ≤ (m.bandwidth_kbps : ℚ) / 8 := by positivity
    have h2 : (0 : ℚ) ≤
        ((m.bandwidth_kbps : ℚ) / 8) * (hi - m.last_refill_time) :=
      mul_nonneg hc (by linarith)
    simp only [BandwidthModule.runShapedBytes]
    linarith
  | cons op ops ih =>
    intro m hi hen hav hburst hhi hts
    simp only [timesValid, Bool.and_eq_true, decide_eq_true_eq] at hts
    obtain ⟨⟨hlo, hop⟩, hts2⟩ := hts
    have hrefill := m.refill_bounds op.time hav hburst hlo
    simp only [BandwidthModule.runShapedBytes]
    cases op with
    | process now batch =>
      have hf := m.processBatch_fields now batch hen
      have hdq := drainQueue_bytes (m.RefillTokenBucket now).available_bytes
        ((m.RefillTokenBucket now).packet_queue ++
          (batch.filter fun p =>
            gatePass m.inbound_enabled m.outbound_enabled p))
      have hdq0 := drainQueue_nonneg
        (m.RefillTokenBucket now).available_bytes
        ((m.RefillTokenBucket now).packet_queue ++
          (batch.filter fun p =>
            gatePass m.inbound_enabled m.outbound_enabled p))
        hrefill.1
      have hih := ih (m.ProcessBatch now batch).2 hi hf.1
        (by rw [hf.2.2.2.2]; exact hdq0)
        (by rw [hf.2.2.1]; exact hburst)
        (by rw [hf.2.2.2.1]; exact hop)
        (by
          rw [hf.2.2.2.1]
          simpa [BwOp.time] using hts2)
      simp only [BandwidthModule.applyOp, BandwidthModule.opShapedBytes,
        hen, Bool.not_true, Bool.false_eq_true, if_false]
      rw [hf.2.1, hf.2.2.2.1, hf.2.2.2.2] at hih
      have hsplit : ((m.bandwidth_kbps : ℚ) / 8) * (hi - m.last_refill_time)
          = ((m.bandwidth_kbps : ℚ) / 8) * (now - m.last_refill_time) +
            ((m.bandwidth_kbps : ℚ) / 8) * (hi - now) := by ring
      have hr3 := hrefill.2.2
      simp only [BwOp.time] at hr3 hlo hop
      linarith
    | drain now =>
      have hf := m.drain_fields now hen
      have hdq := drainQueue_bytes (m.RefillTokenBucket now).available_bytes
        (m.RefillTokenBucket now).packet_queue
      have hdq0 := drainQueue_nonneg
        (m.RefillTokenBucket now).available_bytes
        (m.RefillTokenBucket now).packet_queue hrefill.1
      have hih := ih (m.GetReleasablePackets now).2 hi hf.1
        (by rw [hf.2.2.2.2]; exact hdq0)
        (by rw [hf.2.2.1]; exact hburst)
        (by rw [hf.2.2.2.1]; exact hop)
        (by
          rw [hf.2.2.2.1]
          simpa [BwOp.time] using hts2)
      simp only [BandwidthModule.applyOp, BandwidthModule.opShapedBytes,
        hen, Bool.not_true, Bool.false_eq_true, if_false]
      rw [hf.2.1, hf.2.2.2.1, hf.2.2.2.2] at hih
      have hsplit : ((m.bandwidth_kbps : ℚ) / 8) * (hi - m.last_refill_time)
          = ((m.bandwidth_kbps : ℚ) / 8) * (now - m.last_refill_time) +
            ((m.bandwidth_kbps : ℚ) / 8) * (hi - now) := by ring
      have hr3 := hrefill.2.2
      simp only [BwOp.time] at hr3 hlo hop
      linarith

/-- C9 counterexample: the claim counts all bytes emitted by the stage, but
gate-failing packets bypass the token bucket entirely.  An enabled stage at
56 kbps (`max_burst_bytes = 7000`) with `inbound_enabled = false` receives
one inbound packet of 8000 bytes in a single `process_batch` at time 0 (a
valid trace of the zero-length interval `T = 0`): it emits all 8000 bytes
immediately, exceeding the claimed bound `R·125·T + max_burst_bytes =
7000`. -/
theorem c9_counterexample :
    timesValid 0 (0 + 1000 * 0) [BwOp.process 0 [demoBigPacket]] = true ∧
    demoBandwidthGateFail.runEmittedBytes
      [BwOp.process 0 [demoBigPacket]] = 8000 ∧
    (56 : ℚ) * 125 * 0 + demoBandwidthGateFail.max_burst_bytes < 8000 := by
  refine ⟨?_, ?_, ?_⟩
  · simp [timesValid, BwOp.time]
  · simp only [BandwidthModule.runEmittedBytes, BandwidthModule.applyOp,
      BandwidthModule.ProcessBatch, BandwidthModule.RefillTokenBucket,
      demoBandwidthGateFail, demoBigPacket]
    norm_num [gatePass, ShouldProcess, drainQueue, sumBytes]
  · norm_num [demoBandwidthGateFail]

/-- C9 (amended): while the bandwidth stage is enabled at a fixed rate
`kbps = R` with `max_burst_bytes = R·125` and a token balance within
`[0, max_burst_bytes]`, over any valid trace of `process_batch` and
`drain_due` operations confined to a window of `T` seconds the total bytes
of packets released from the token-governed queue (gate-failing bypass
packets excluded — they never touch the bucket) is at most
`R·125·T + max_burst_bytes`. -/
theorem c9_bandwidth_bound_amended (m : BandwidthModule) (ops : List BwOp)
    (R : Nat) (T : ℚ) (hen : m.enabled = true)
    (hR : m.bandwidth_kbps = R)
    (hburst : m.max_burst_bytes = (R : ℚ) * 125)
    (hav0 : 0 ≤ m.available_bytes)
    (hav1 : m.available_bytes ≤ m.max_burst_bytes) (hT : 0 ≤ T)
    (hts : timesValid m.last_refill_time
      (m.last_refill_time + 1000 * T) ops = true) :
    m.runShapedBytes ops ≤ (R : ℚ) * 125 * T + m.max_burst_bytes := by
  have hb0 : 0 ≤ m.max_burst_bytes := by
    rw [hburst]
    positivity
  have h := BandwidthModule.runShapedBytes_bound ops m
    (m.last_refill_time + 1000 * T) hen hav0 hb0 (by linarith) hts
  rw [hR] at h
  have heq : ((R : ℚ) / 8) *
      (m.last_refill_time + 1000 * T - m.last_refill_time) =
      (R : ℚ) * 125 * T := by ring
  rw [heq] at h
  linarith

/-- C9 witness: a concrete two-operation trace at 56 kbps within a
one-second window. -/
theorem c9_bandwidth_bound_witness :
    demoBandwidth.runShapedBytes
      [BwOp.process 0 [demoPktIn], BwOp.drain 500] ≤
      (56 : ℚ) * 125 * 1 + demoBandwidth.max_burst_bytes := by
  have h := c9_bandwidth_bound_amended demoBandwidth
    [BwOp.process 0 [demoPktIn], BwOp.drain 500] 56 1 rfl rfl
    (by norm_num [demoBandwidth]) (by norm_num [demoBandwidth])
    (by norm_num [demoBandwidth]) (by norm_num)
    (by norm_num [timesValid, BwOp.time, demoBandwidth])
  exact h

end BadLink
